import Mathlib

/-!
Verification of the layer/mask section reader (psd_tools reader/layers.py).

The byte source is modelled as a list of byte values with a cursor and a
side list of collected warnings.  Reader functions are shallow embeddings
of the Python functions: they are state-passing functions returning
`Except PError (value, stream)`, where `PError` captures the exceptions
the Python code can raise (psd_tools `Error`, `struct.error` on a short
`read_fmt`, `NameError` on an undefined name, `ValueError` on a negative
seek).  Warnings issued with `warnings.warn` are appended to the stream's
warning list and never raised.
-/

set_option linter.unusedVariables false

/-- Byte source state: the underlying bytes, the cursor and the collected
warnings. -/
structure PStream where
  data : List Nat
  pos : Nat
  warns : List String
deriving DecidableEq, Repr

/-- Exceptions the Python reader can raise. -/
inductive PError where
  /-- psd_tools exceptions.Error with its message, as raised by the code. -/
  | error (msg : String)
  /-- struct.error: read_fmt did not get enough bytes. -/
  | structError
  /-- NameError: an undefined name was referenced. -/
  | nameError (nm : String)
  /-- ValueError: a seek to a negative absolute position. -/
  | valueError
  /-- UnicodeDecodeError: bytes.decode('ascii') met a byte above 0x7f. -/
  | unicodeDecodeError
deriving DecidableEq, Repr

/-- The reader monad: state passing over `PStream`, short-circuiting on a
raised exception. -/
def ReadM (α : Type) : Type := PStream → Except PError (α × PStream)

instance : Monad ReadM where
  pure a := fun s => .ok (a, s)
  bind m k := fun s =>
    match m s with
    | .ok (a, s₁) => k a s₁
    | .error e => .error e

/-- Raise a Python exception. -/
def throwErr {α : Type} (e : PError) : ReadM α := fun _ => .error e

/-- The bytes `data[pos : pos+n]` (shorter at end of data). -/
def bytesAt (data : List Nat) (pos n : Nat) : List Nat :=
  (data.drop pos).take n

/-- fp.read(n) for a nonnegative count: returns up to `n` bytes and
advances the cursor by the number of bytes returned (short at EOF). -/
def readUpTo (n : Nat) : ReadM (List Nat) := fun s =>
  let bs := bytesAt s.data s.pos n
  .ok (bs, ⟨s.data, s.pos + bs.length, s.warns⟩)

/-- Modelled from the spec: the primitive big-endian reader `read_fmt`
(psd_tools.utils, not part of the sources) is all-or-nothing: it reads
exactly `n` bytes or raises struct.error. -/
def readExact (n : Nat) : ReadM (List Nat) := fun s =>
  if s.pos + n ≤ s.data.length then
    .ok (bytesAt s.data s.pos n, ⟨s.data, s.pos + n, s.warns⟩)
  else
    .error .structError

/-- fp.read with a possibly negative size: a negative size reads the whole
remainder (io.BytesIO semantics), a nonnegative one reads up to that many
bytes. -/
def fpRead (n : Int) : ReadM (List Nat) := fun s =>
  if n < 0 then readUpTo (s.data.length - s.pos) s else readUpTo n.toNat s

/-- fp.seek(d, 1): relative seek; raises ValueError when the resulting
absolute position would be negative; seeking past the end is allowed. -/
def seekRel (d : Int) : ReadM Unit := fun s =>
  if 0 ≤ (s.pos : Int) + d then
    .ok ((), ⟨s.data, ((s.pos : Int) + d).toNat, s.warns⟩)
  else
    .error .valueError

/-- warnings.warn: collect the message; never raises. -/
def warnM (m : String) : ReadM Unit := fun s =>
  .ok ((), ⟨s.data, s.pos, s.warns ++ [m]⟩)

/-- fp.tell(). -/
def tellM : ReadM Nat := fun s => .ok (s.pos, s)

/-- bytes.decode('ascii'): returns the bytes verbatim when they are all
below 0x80 and raises UnicodeDecodeError otherwise; the cursor does not
move. -/
def decodeAscii (bs : List Nat) : ReadM (List Nat) := fun s =>
  if bs.all (fun b => b < 128) then .ok (bs, s) else .error .unicodeDecodeError

/-- Big-endian value of a byte list. -/
def beNat (bs : List Nat) : Nat :=
  bs.foldl (fun a b => a * 256 + b) 0

/-- Two's-complement signed value of a `w`-bit unsigned value. -/
def toSigned (w : Nat) (v : Nat) : Int :=
  if v < 2 ^ (w - 1) then (v : Int) else (v : Int) - 2 ^ w

/-- Slice `bs[i : i+n]`. -/
def seg (bs : List Nat) (i n : Nat) : List Nat :=
  (bs.drop i).take n

/-- Big-endian field of `n` bytes at offset `i` of a byte list. -/
def beAt (bs : List Nat) (i n : Nat) : Nat :=
  beNat (seg bs i n)

/-- Signed 32-bit big-endian field at offset `i`. -/
def i32At (bs : List Nat) (i : Nat) : Int :=
  toSigned 32 (beAt bs i 4)

/-- Single byte at offset `i` (0 when out of range). -/
def byteAt (bs : List Nat) (i : Nat) : Nat :=
  bs.getD i 0

/-- read_fmt("I"): big-endian u32. -/
def readU32 : ReadM Nat := do
  let bs ← readExact 4
  pure (beNat bs)

/-- read_fmt("H"): big-endian u16. -/
def readU16 : ReadM Nat := do
  let bs ← readExact 2
  pure (beNat bs)

/-- read_fmt("B"): one unsigned byte. -/
def readU8 : ReadM Nat := do
  let bs ← readExact 1
  pure (beNat bs)

/-- read_fmt("h"): big-endian signed 16-bit. -/
def readI16 : ReadM Int := do
  let bs ← readExact 2
  pure (toSigned 16 (beNat bs))

/-- Split a byte list into consecutive big-endian u16 values. -/
def parseU16s : List Nat → List Nat
  | a :: b :: rest => (a * 256 + b) :: parseU16s rest
  | _ => []

/-- u32 field of the stream data at absolute position `p`. -/
def u32At (data : List Nat) (p : Nat) : Nat :=
  beNat (bytesAt data p 4)

/-- u16 field of the stream data at absolute position `p`. -/
def u16At (data : List Nat) (p : Nat) : Nat :=
  beNat (bytesAt data p 2)

/-- The bytes of the ASCII signature '8BIM'. -/
def sig8BIM : List Nat := [56, 66, 73, 77]

/-- The bytes of the ASCII signature '8B64'. -/
def sig8B64 : List Nat := [56, 66, 54, 52]

/-- Render bytes as the string Python's ascii decode would produce. -/
def bytesToStr (bs : List Nat) : String :=
  String.mk (bs.map Char.ofNat)

/-- Modelled from the spec: the blend-mode registry
(psd_tools.constants.BlendMode, not part of the sources); unrecognized
keys are warned about and stored verbatim. -/
def knownBlendModes : List String :=
  ["pass", "norm", "diss", "dark", "mult", "idiv", "lbrn", "dkCl",
   "lite", "scrn", "div ", "lddg", "lgCl", "over", "sLit", "hLit",
   "vLit", "lLit", "pLit", "hMix", "diff", "smud", "fsub", "fdiv",
   "hue ", "sat ", "colr", "lum "]

/-- BlendMode.is_known. -/
def blendModeIsKnown (bs : List Nat) : Bool :=
  knownBlendModes.contains (bytesToStr bs)

/-- Modelled from the spec: Clipping (psd_tools.constants, not part of the
sources) is a u8 enum with the two values base=0 and non-base=1. -/
def clippingIsKnown (c : Nat) : Bool :=
  c == 0 || c == 1

/-- Compression.RAW. -/
def compressionRAW : Nat := 0

/-- Compression.PACK_BITS. -/
def compressionPackBits : Nat := 1

/-- Modelled from the spec: Compression (psd_tools.constants, not part of
the sources) knows Raw=0, PackBits=1 and the two ZIP variants 2 and 3. -/
def compressionIsKnown (c : Nat) : Bool :=
  c == 0 || c == 1 || c == 2 || c == 3

/-- Modelled from the spec: read_pascal_string with padding 1
(psd_tools.utils, not part of the sources) reads a 1-byte length and then
that many bytes of name, with no alignment padding. -/
def read_pascal_string : ReadM (List Nat) := do
  let n ← readU8
  let bs ← readUpTo n
  pure bs

/-- Modelled from the spec: read_be_array("H", count, fp)
(psd_tools.utils, not part of the sources) reads `count` big-endian u16
values; a nonpositive count reads none. -/
def read_be_array_H (count : Nat) : ReadM (List Nat) := do
  let bs ← readExact (2 * count)
  pure (parseU16s bs)

/-- ChannelInfo namedtuple: id and declared data length. -/
structure ChannelInfo where
  id : Int
  length : Nat
deriving DecidableEq, Repr

/-- MaskData namedtuple as defined in the module (the reader tries to
construct the undefined name LayerMaskData instead, so no value of this
type is ever produced by a successful parse of a 20- or 36-byte mask). -/
structure MaskData where
  top : Int
  left : Int
  bottom : Int
  right : Int
  default_color : Nat
  flags : Nat
  real_flags : Option Nat
  real_background : Option Nat
deriving DecidableEq, Repr

/-- LayerBlendingRanges namedtuple. -/
structure LayerBlendingRanges where
  composite_ranges : Option ((Nat × Nat) × (Nat × Nat))
  channel_ranges : List ((Nat × Nat) × (Nat × Nat))
deriving DecidableEq, Repr

/-- LayerRecord namedtuple (name kept as raw bytes). -/
structure LayerRecord where
  top : Int
  left : Int
  bottom : Int
  right : Int
  num_channels : Nat
  channels : List ChannelInfo
  blend_mode : List Nat
  opacity : Nat
  cilpping : Nat
  flags : Nat
  mask_data : Option MaskData
  blending_ranges : LayerBlendingRanges
  name : List Nat
  tagged_blocks : List (List Nat × List Nat)
deriving DecidableEq, Repr

/-- LayerRecord.width(). -/
def LayerRecord.width (r : LayerRecord) : Int := r.right - r.left

/-- LayerRecord.height(). -/
def LayerRecord.height (r : LayerRecord) : Int := r.bottom - r.top

/-- ChannelData namedtuple: compression tag and still-compressed bytes. -/
structure ChannelData where
  compression : Nat
  data : List Nat
deriving DecidableEq, Repr

/-- Layers namedtuple. -/
structure Layers where
  length : Nat
  layer_count : Int
  layer_records : List LayerRecord
  channel_image_data : List (List ChannelData)
deriving DecidableEq, Repr

/-- GlobalMaskInfo namedtuple. -/
structure GlobalMaskInfo where
  overlay : Nat
  color_components : Nat × Nat × Nat × Nat
  opacity : Nat
  kind : Nat
deriving DecidableEq, Repr

/-- LayerAndMaskInfo namedtuple. -/
structure LayerAndMaskInfo where
  layers : Layers
  global_mask_info : GlobalMaskInfo
  tagged_blocks : List (List Nat × List Nat)
deriving DecidableEq, Repr

/-- Header fields used by read_image_data. -/
structure Header where
  width : Nat
  height : Nat
  number_of_channels : Nat
deriving DecidableEq, Repr

/-- Success of a bind decomposes into successes of its parts. -/
theorem bind_ok {α β : Type} {m : ReadM α} {k : α → ReadM β} {s s' : PStream} {b : β}
    (h : (m >>= k) s = .ok (b, s')) :
    ∃ a s₁, m s = .ok (a, s₁) ∧ k a s₁ = .ok (b, s') := by
  have hb : (m >>= k) s = match m s with
    | .ok (a, s₁) => k a s₁
    | .error e => .error e := rfl
  rw [hb] at h
  cases hm : m s with
  | error e => rw [hm] at h; exact absurd h (by simp)
  | ok p =>
    obtain ⟨a, s₁⟩ := p
    rw [hm] at h
    exact ⟨a, s₁, rfl, h⟩

/-- Unfolding a bind at a state. -/
theorem bind_apply {α β : Type} (m : ReadM α) (k : α → ReadM β) (s : PStream) :
    (m >>= k) s = match m s with
      | .ok (a, s₁) => k a s₁
      | .error e => .error e := rfl

/-- Unfolding pure at a state. -/
theorem pure_apply {α : Type} (a : α) (s : PStream) :
    (pure a : ReadM α) s = .ok (a, s) := rfl

/-- Success of readExact pins down the value and the next state. -/
theorem readExact_ok {n : Nat} {s : PStream} {bs : List Nat} {s' : PStream}
    (h : readExact n s = .ok (bs, s')) :
    bs = bytesAt s.data s.pos n ∧ s.pos + n ≤ s.data.length ∧
      s' = ⟨s.data, s.pos + n, s.warns⟩ := by
  unfold readExact at h
  split at h
  · simp only [Except.ok.injEq, Prod.mk.injEq] at h
    exact ⟨h.1.symm, by assumption, h.2.symm⟩
  · exact absurd h (by simp)

/-- readUpTo always succeeds, with this value and next state. -/
theorem readUpTo_eq (n : Nat) (s : PStream) :
    readUpTo n s = .ok (bytesAt s.data s.pos n,
      ⟨s.data, s.pos + (bytesAt s.data s.pos n).length, s.warns⟩) := rfl

/-- Success of readU32 pins down the value and the next state. -/
theorem readU32_ok {s : PStream} {v : Nat} {s' : PStream}
    (h : readU32 s = .ok (v, s')) :
    v = u32At s.data s.pos ∧ s.pos + 4 ≤ s.data.length ∧
      s' = ⟨s.data, s.pos + 4, s.warns⟩ := by
  obtain ⟨bs, s₁, h₁, h₂⟩ := bind_ok h
  obtain ⟨hbs, hle, hs₁⟩ := readExact_ok h₁
  rw [pure_apply] at h₂
  simp only [Except.ok.injEq, Prod.mk.injEq] at h₂
  exact ⟨by rw [← h₂.1, hbs]; rfl, hle, by rw [← h₂.2, hs₁]⟩

/-- Success of readU16 pins down the value and the next state. -/
theorem readU16_ok {s : PStream} {v : Nat} {s' : PStream}
    (h : readU16 s = .ok (v, s')) :
    v = u16At s.data s.pos ∧ s.pos + 2 ≤ s.data.length ∧
      s' = ⟨s.data, s.pos + 2, s.warns⟩ := by
  obtain ⟨bs, s₁, h₁, h₂⟩ := bind_ok h
  obtain ⟨hbs, hle, hs₁⟩ := readExact_ok h₁
  rw [pure_apply] at h₂
  simp only [Except.ok.injEq, Prod.mk.injEq] at h₂
  exact ⟨by rw [← h₂.1, hbs]; rfl, hle, by rw [← h₂.2, hs₁]⟩

/-- Success of a relative seek pins down the next state. -/
theorem seekRel_ok {d : Int} {s : PStream} {u : Unit} {s' : PStream}
    (h : seekRel d s = .ok (u, s')) :
    0 ≤ (s.pos : Int) + d ∧ s' = ⟨s.data, ((s.pos : Int) + d).toNat, s.warns⟩ := by
  unfold seekRel at h
  split at h
  · simp only [Except.ok.injEq, Prod.mk.injEq] at h
    exact ⟨by assumption, h.2.symm⟩
  · exact absurd h (by simp)

/-- Reads a tagged block with additional layer information; returns none
(after un-peeking the 4 signature bytes) when the signature is not
recognized. -/
def _read_additional_layer_info_block : ReadM (Option (List Nat × List Nat)) := do
  let sig ← readUpTo 4
  if sig ≠ sig8BIM ∧ sig ≠ sig8B64 then
    seekRel (-4)
    pure none
  else
    let key ← readUpTo 4
    let length ← readU32
    let data ← readUpTo length
    pure (some (key, data))

/-- A successfully appended tagged block advances the cursor by at least
its 8 signature and key bytes (plus length field and payload). -/
theorem block_some_pos {s : PStream} {v : List Nat × List Nat} {s' : PStream}
    (h : _read_additional_layer_info_block s = .ok (some v, s')) :
    s.pos + 8 ≤ s'.pos := by
  unfold _read_additional_layer_info_block at h
  obtain ⟨sig, s₁, h₁, h₂⟩ := bind_ok h
  rw [readUpTo_eq] at h₁
  simp only [Except.ok.injEq, Prod.mk.injEq] at h₁
  split at h₂
  · obtain ⟨u, s₂, hseek, hpure⟩ := bind_ok h₂
    rw [pure_apply] at hpure
    simp at hpure
  · next hc =>
    have hsig : sig = sig8BIM ∨ sig = sig8B64 := by
      by_cases hA : sig = sig8BIM
      · exact Or.inl hA
      · by_cases hB : sig = sig8B64
        · exact Or.inr hB
        · exact absurd ⟨hA, hB⟩ hc
    have hlen : sig.length = 4 := by
      cases hsig with
      | inl hA => rw [hA]; rfl
      | inr hB => rw [hB]; rfl
    obtain ⟨key, s₂, hkey, h₃⟩ := bind_ok h₂
    obtain ⟨len, s₃, hlenr, h₄⟩ := bind_ok h₃
    obtain ⟨dat, s₄, hdat, h₅⟩ := bind_ok h₄
    rw [readUpTo_eq] at hkey
    simp only [Except.ok.injEq, Prod.mk.injEq] at hkey
    obtain ⟨hv, hle, hs₃⟩ := readU32_ok hlenr
    rw [readUpTo_eq] at hdat
    simp only [Except.ok.injEq, Prod.mk.injEq] at hdat
    rw [pure_apply] at h₅
    simp only [Except.ok.injEq, Prod.mk.injEq] at h₅
    have e1 : s₁.pos = s.pos + 4 := by
      rw [← h₁.2]
      show s.pos + (bytesAt s.data s.pos 4).length = s.pos + 4
      rw [h₁.1, hlen]
    have e2 : s₂.pos = s₁.pos + (bytesAt s₁.data s₁.pos 4).length := by
      rw [← hkey.2]
    have e3 : s₃.pos = s₂.pos + 4 := by rw [hs₃]
    have e4 : s₄.pos = s₃.pos + (bytesAt s₃.data s₃.pos len).length := by
      rw [← hdat.2]
    have e5 : s'.pos = s₄.pos := by rw [← h₅.2]
    omega

/-- The while loop of _read_layer_tagged_blocks: keep reading blocks while
the bytes consumed since the start are below the budget; an unrecognized
signature (none) breaks out. -/
def tbLoop (startPos : Nat) (budget : Int) (acc : List (List Nat × List Nat))
    (s : PStream) : Except PError (List (List Nat × List Nat) × PStream) :=
  if h : ((s.pos : Int) - (startPos : Int)) < budget then
    match hb : _read_additional_layer_info_block s with
    | .error e => .error e
    | .ok (none, s₁) => .ok (acc, s₁)
    | .ok (some b, s₁) => tbLoop startPos budget (acc ++ [b]) s₁
  else
    .ok (acc, s)
termination_by startPos + budget.toNat - s.pos
decreasing_by
  have h8 := block_some_pos hb
  omega

/-- Reads a section of tagged blocks with additional layer information,
bounded by the byte budget remaining_length. -/
def _read_layer_tagged_blocks (remaining_length : Int) :
    ReadM (List (List Nat × List Nat)) :=
  fun s => tbLoop s.pos remaining_length [] s

/-- Reads layer mask / adjustment layer data.  For the sizes 20 and 36 the
source constructs LayerMaskData, a name not defined in the module (the
namedtuple is called MaskData), so those sizes raise NameError. -/
def _read_layer_mask_data : ReadM (Option MaskData) := do
  let size ← readU32
  if size ≠ 0 ∧ size ≠ 20 ∧ size ≠ 36 then
    warnM ("Invalid layer data size: " ++ toString size)
    seekRel (size : Int)
    pure none
  else
    if size = 0 then
      pure none
    else
      let bs ← readExact 18
      let top := i32At bs 0
      let left := i32At bs 4
      let bottom := i32At bs 8
      let right := i32At bs 12
      let default_color := byteAt bs 16
      let flags := byteAt bs 17
      if size = 20 then
        seekRel 2
        throwErr (PError.nameError "LayerMaskData")
      else
        let bs2 ← readExact 2
        seekRel 16
        throwErr (PError.nameError "LayerMaskData")

/-- Reads one pair of channel ranges (read_channel_range in the source). -/
def read_channel_range : ReadM ((Nat × Nat) × (Nat × Nat)) := do
  let bs ← readExact 8
  pure ((beAt bs 0 2, beAt bs 2 2), (beAt bs 4 2, beAt bs 6 2))

/-- The per-channel loop of _read_layer_blending_ranges: reads `n` channel
range pairs. -/
def readChannelRangesLoop : Nat → ReadM (List ((Nat × Nat) × (Nat × Nat)))
  | 0 => pure []
  | k + 1 => do
    let r ← read_channel_range
    let rest ← readChannelRangesLoop k
    pure (r :: rest)

/-- Reads layer blending data. -/
def _read_layer_blending_ranges : ReadM LayerBlendingRanges := do
  let length ← readU32
  if length ≠ 0 then
    let composite_ranges ← read_channel_range
    let channel_ranges ← readChannelRangesLoop (length / 8 - 1)
    pure ⟨some composite_ranges, channel_ranges⟩
  else
    pure ⟨none, []⟩

/-- The channel-info loop of _read_layer_record: reads `n` ChannelInfo
pairs (read_fmt("hI")). -/
def readChannelInfosLoop : Nat → ReadM (List ChannelInfo)
  | 0 => pure []
  | k + 1 => do
    let bs ← readExact 6
    let rest ← readChannelInfosLoop k
    pure (ChannelInfo.mk (toSigned 16 (beAt bs 0 2)) (beAt bs 2 4) :: rest)

/-- Reads a single layer record. -/
def _read_layer_record : ReadM LayerRecord := do
  let bs ← readExact 16
  let top := i32At bs 0
  let left := i32At bs 4
  let bottom := i32At bs 8
  let right := i32At bs 12
  let num_channels ← readU16
  let channel_info ← readChannelInfosLoop num_channels
  let sig ← readUpTo 4
  if sig ≠ sig8BIM then
    throwErr (PError.error ("Error parsing layer: invalid signature (" ++ toString sig ++ ")"))
  let blend_mode_bytes ← readUpTo 4
  let blend_mode ← decodeAscii blend_mode_bytes
  if blendModeIsKnown blend_mode = false then
    warnM ("Unknown blend mode (" ++ bytesToStr blend_mode ++ ")")
  let bs2 ← readExact 8
  let opacity := byteAt bs2 0
  let clipping := byteAt bs2 1
  let flags := byteAt bs2 2
  let extra_length := beAt bs2 4 4
  if clippingIsKnown clipping = false then
    warnM ("Unknown clipping: " ++ toString clipping)
  let start ← tellM
  let mask_data ← _read_layer_mask_data
  let blending_ranges ← _read_layer_blending_ranges
  let name ← read_pascal_string
  let t1 ← tellM
  let tagged_blocks ← _read_layer_tagged_blocks ((extra_length : Int) - ((t1 : Int) - (start : Int)))
  let t2 ← tellM
  seekRel ((extra_length : Int) - ((t2 : Int) - (start : Int)))
  pure (LayerRecord.mk top left bottom right num_channels channel_info blend_mode
    opacity clipping flags mask_data blending_ranges name tagged_blocks)

/-- The body of the per-channel loop of _read_channel_image_data: reads one
channel's compression tag and payload, then reconciles against the
channel's declared data length. -/
def readChannelStep (w h : Int) (channel : ChannelInfo) : ReadM (Option ChannelData) := do
  let start_pos ← tellM
  let compression ← readU16
  let result ←
    if compression = compressionRAW then do
      let data ← fpRead (w * h)
      pure (some (ChannelData.mk compression data))
    else
      if compression = compressionPackBits then do
        let byte_counts ← read_be_array_H h.toNat
        let data ← fpRead ((byte_counts.sum : Nat) : Int)
        pure (some (ChannelData.mk compression data))
      else
        if compressionIsKnown compression then do
          warnM ("This compression type (" ++ toString compression ++ ") is not yet supported.")
          pure none
        else do
          warnM ("Unknown compression type: " ++ toString compression)
          pure none
  let t ← tellM
  let remaining_bytes : Int := (channel.length : Int) - ((t : Int) - (start_pos : Int)) - 2
  if remaining_bytes > 0 then
    seekRel remaining_bytes
  pure result

/-- The per-channel loop of _read_channel_image_data over the layer's
channels; only Raw and PackBits channels append data. -/
def readChannelsLoop (w h : Int) : List ChannelInfo → ReadM (List ChannelData)
  | [] => pure []
  | c :: rest => do
    let r ← readChannelStep w h c
    let restData ← readChannelsLoop w h rest
    match r with
    | some d => pure (d :: restData)
    | none => pure restData

/-- Reads image data for all channels in a layer. -/
def _read_channel_image_data (layer : LayerRecord) : ReadM (List ChannelData) :=
  readChannelsLoop (LayerRecord.width layer) (LayerRecord.height layer) layer.channels

/-- The layer-record loop of _read_layers. -/
def readLayerRecordsLoop : Nat → ReadM (List LayerRecord)
  | 0 => pure []
  | k + 1 => do
    let layer ← _read_layer_record
    let rest ← readLayerRecordsLoop k
    pure (layer :: rest)

/-- The channel-image loop of _read_layers. -/
def readChannelImagesLoop : List LayerRecord → ReadM (List (List ChannelData))
  | [] => pure []
  | layer :: rest => do
    let d ← _read_channel_image_data layer
    let restD ← readChannelImagesLoop rest
    pure (d :: restD)

/-- Reads info about layers. -/
def _read_layers : ReadM Layers := do
  let length ← readU32
  let layer_count ← readI16
  let layer_records ← readLayerRecordsLoop layer_count.natAbs
  let channel_image_data ← readChannelImagesLoop layer_records
  pure ⟨length, layer_count, layer_records, channel_image_data⟩

/-- Reads global layer mask info. -/
def _read_global_mask_info : ReadM GlobalMaskInfo := do
  let start_pos ← tellM
  let bs ← readExact 17
  let length := beAt bs 0 4
  let overlay_color_space := beAt bs 4 2
  let c1 := beAt bs 6 2
  let c2 := beAt bs 8 2
  let c3 := beAt bs 10 2
  let c4 := beAt bs 12 2
  let opacity := beAt bs 14 2
  let kind := byteAt bs 16
  let t ← tellM
  let filler_length : Int := (length : Int) - ((t : Int) - (start_pos : Int))
  if filler_length > 0 then
    seekRel filler_length
  pure ⟨overlay_color_space, (c1, c2, c3, c4), opacity, kind⟩

/-- Reads the layers and masks information section (the module-level
function read(fp, encoding) of the source). -/
def readLayerAndMaskInfo : ReadM LayerAndMaskInfo := do
  let length ← readU32
  let start_position ← tellM
  let layers ← _read_layers
  let global_mask_info ← _read_global_mask_info
  let cb1 ← tellM
  let tagged_blocks ← _read_layer_tagged_blocks ((length : Int) - ((cb1 : Int) - (start_position : Int)))
  let cb2 ← tellM
  seekRel ((length : Int) - ((cb2 : Int) - (start_position : Int)))
  pure ⟨layers, global_mask_info, tagged_blocks⟩

/-- The per-channel-id loop of the PackBits scan-line-table pass of
read_image_data: reads one u16 table of `h` counts per channel. -/
def readCountsTablesLoop (h : Nat) : Nat → ReadM (List (List Nat))
  | 0 => pure []
  | k + 1 => do
    let a ← read_be_array_H h
    let rest ← readCountsTablesLoop h k
    pure (a :: rest)

/-- The channel loop of read_image_data; counts tables are consumed in
channel order for PackBits. -/
def readMergedLoop (compression w h : Nat) :
    List (List Nat) → Nat → ReadM (List ChannelData)
  | _, 0 => pure []
  | counts, k + 1 =>
    if compression = compressionRAW then do
      let data ← readUpTo (w * h)
      let rest ← readMergedLoop compression w h counts k
      pure (ChannelData.mk compression data :: rest)
    else
      if compression = compressionPackBits then do
        let data ← readUpTo (counts.headD []).sum
        let rest ← readMergedLoop compression w h counts.tail k
        pure (ChannelData.mk compression data :: rest)
      else
        if compressionIsKnown compression then do
          warnM ("This compression type (" ++ toString compression ++ ") is not yet supported.")
          readMergedLoop compression w h counts k
        else do
          warnM ("Unknown compression type: " ++ toString compression)
          readMergedLoop compression w h counts k

/-- Reads merged image pixel data stored at the end of the PSD file; no
per-channel declared lengths exist here, so no reconciliation happens. -/
def read_image_data (header : Header) : ReadM (List ChannelData) := do
  let compression ← readU16
  let channel_byte_counts ←
    if compression = compressionPackBits then
      readCountsTablesLoop header.height header.number_of_channels
    else
      pure []
  readMergedLoop compression header.width header.height channel_byte_counts
    header.number_of_channels

/-- bytesAt returns exactly n bytes when they are available. -/
theorem bytesAt_length_of_le {data : List Nat} {p n : Nat}
    (h : p + n ≤ data.length) : (bytesAt data p n).length = n := by
  unfold bytesAt
  rw [List.length_take, List.length_drop]
  omega

/-- Length of bytesAt in general. -/
theorem bytesAt_length (data : List Nat) (p n : Nat) :
    (bytesAt data p n).length = min n (data.length - p) := by
  unfold bytesAt
  rw [List.length_take, List.length_drop]

/-- A slice of a slice of the data is a slice of the data. -/
theorem seg_bytesAt (data : List Nat) (p m i n : Nat) (h : i + n ≤ m) :
    seg (bytesAt data p m) i n = bytesAt data (p + i) n := by
  unfold seg bytesAt
  rw [List.drop_take, List.take_take, List.drop_drop]
  rw [Nat.min_eq_left (by omega)]

/-- beAt of a containing slice. -/
theorem beAt_bytesAt (data : List Nat) (p m i n : Nat) (h : i + n ≤ m) :
    beAt (bytesAt data p m) i n = beNat (bytesAt data (p + i) n) := by
  unfold beAt
  rw [seg_bytesAt data p m i n h]

/-- throwErr never returns ok. -/
theorem throwErr_ne_ok {α : Type} {e : PError} {s s' : PStream} {a : α}
    (h : throwErr e s = .ok (a, s')) : False := by
  simp [throwErr] at h

/-- Evaluating readU16 when two bytes are available. -/
theorem readU16_eq_of {s : PStream} (h2 : s.pos + 2 ≤ s.data.length) :
    readU16 s = .ok (u16At s.data s.pos, ⟨s.data, s.pos + 2, s.warns⟩) := by
  unfold readU16
  rw [bind_apply]
  unfold readExact
  rw [if_pos h2]
  rfl

/-- Evaluating readU32 when four bytes are available. -/
theorem readU32_eq_of {s : PStream} (h4 : s.pos + 4 ≤ s.data.length) :
    readU32 s = .ok (u32At s.data s.pos, ⟨s.data, s.pos + 4, s.warns⟩) := by
  unfold readU32
  rw [bind_apply]
  unfold readExact
  rw [if_pos h4]
  rfl

/-- Evaluating readU8 when one byte is available. -/
theorem readU8_eq_of {s : PStream} (h1 : s.pos + 1 ≤ s.data.length) :
    readU8 s = .ok (beNat (bytesAt s.data s.pos 1), ⟨s.data, s.pos + 1, s.warns⟩) := by
  unfold readU8
  rw [bind_apply]
  unfold readExact
  rw [if_pos h1]
  rfl

/-- fpRead with a nonnegative size is readUpTo. -/
theorem fpRead_nonneg {n : Int} (hn : 0 ≤ n) (s : PStream) :
    fpRead n s = readUpTo n.toNat s := by
  unfold fpRead
  rw [if_neg (by omega)]

/-- fpRead with a negative size reads the whole remainder. -/
theorem fpRead_neg {n : Int} (hn : n < 0) (s : PStream) :
    fpRead n s = readUpTo (s.data.length - s.pos) s := by
  unfold fpRead
  rw [if_pos hn]

/-- Evaluating a relative seek with a nonnegative target. -/
theorem seekRel_eq_of {d : Int} {s : PStream} (h : 0 ≤ (s.pos : Int) + d) :
    seekRel d s = .ok ((), ⟨s.data, ((s.pos : Int) + d).toNat, s.warns⟩) := by
  unfold seekRel
  rw [if_pos h]

/-- Evaluating tellM. -/
theorem tellM_eq (s : PStream) : tellM s = .ok (s.pos, s) := rfl

/-- Evaluating warnM. -/
theorem warnM_eq (m : String) (s : PStream) :
    warnM m s = .ok ((), ⟨s.data, s.pos, s.warns ++ [m]⟩) := rfl

/-- Success of tellM. -/
theorem tellM_ok {s : PStream} {a : Nat} {s' : PStream}
    (h : tellM s = .ok (a, s')) : a = s.pos ∧ s' = s := by
  rw [tellM_eq] at h
  simp only [Except.ok.injEq, Prod.mk.injEq] at h
  exact ⟨h.1.symm, h.2.symm⟩

/-- Success of pure. -/
theorem pure_ok {α : Type} {a b : α} {s s' : PStream}
    (h : (pure a : ReadM α) s = .ok (b, s')) : b = a ∧ s' = s := by
  rw [pure_apply] at h
  simp only [Except.ok.injEq, Prod.mk.injEq] at h
  exact ⟨h.1.symm, h.2.symm⟩

/-- Success of warnM. -/
theorem warnM_ok {m : String} {s : PStream} {u : Unit} {s' : PStream}
    (h : warnM m s = .ok (u, s')) : s' = ⟨s.data, s.pos, s.warns ++ [m]⟩ := by
  rw [warnM_eq] at h
  simp only [Except.ok.injEq, Prod.mk.injEq] at h
  exact h.2.symm

/-- Success of the ascii decode: the bytes pass through and the stream is
unchanged. -/
theorem decodeAscii_ok {bs : List Nat} {s : PStream} {v : List Nat} {s' : PStream}
    (h : decodeAscii bs s = .ok (v, s')) : v = bs ∧ s' = s := by
  unfold decodeAscii at h
  split at h
  · simp only [Except.ok.injEq, Prod.mk.injEq] at h
    exact ⟨h.1.symm, h.2.symm⟩
  · exact absurd h (by simp)

/-- A conditional warning preserves position and data. -/
theorem ite_warn_ok {c : Prop} [Decidable c] {m : String} {s : PStream} {u : Unit}
    {s' : PStream} (h : (if c then warnM m else pure ()) s = .ok (u, s')) :
    s'.pos = s.pos ∧ s'.data = s.data := by
  split at h
  · rw [warnM_ok h]; exact ⟨rfl, rfl⟩
  · rw [(pure_ok h).2]; exact ⟨rfl, rfl⟩

/-- Whenever the layer-mask decoder returns a value, the cursor ends
exactly 4 + size bytes past the mask-record start (the 20- and 36-byte
variants never return: they raise NameError). -/
theorem mask_ok_pos {s : PStream} {v : Option MaskData} {s' : PStream}
    (h : _read_layer_mask_data s = .ok (v, s')) :
    s'.pos = s.pos + 4 + u32At s.data s.pos := by
  unfold _read_layer_mask_data at h
  obtain ⟨size, s₁, h₁, h₂⟩ := bind_ok h
  obtain ⟨hsz, hle, hs₁⟩ := readU32_ok h₁
  have e1 : s₁.pos = s.pos + 4 := by rw [hs₁]
  split at h₂
  · obtain ⟨u, s₂, hw, h₃⟩ := bind_ok h₂
    obtain ⟨u2, s₃, hsk, h₄⟩ := bind_ok h₃
    have e2 : s₂.pos = s₁.pos := by rw [warnM_ok hw]
    obtain ⟨hge, hs₃⟩ := seekRel_ok hsk
    have e3 : s₃.pos = ((s₂.pos : Int) + (size : Int)).toNat := by rw [hs₃]
    have e4 : s'.pos = s₃.pos := by rw [(pure_ok h₄).2]
    subst hsz
    omega
  · split at h₂
    · have e2 : s'.pos = s₁.pos := by rw [(pure_ok h₂).2]
      have h0 : size = 0 := by assumption
      subst hsz
      omega
    · obtain ⟨bs, s₂, hbs, h₃⟩ := bind_ok h₂
      split at h₃
      · obtain ⟨u, s₃, hsk, h₄⟩ := bind_ok h₃
        exact (throwErr_ne_ok h₄).elim
      · obtain ⟨bs2, s₃, hbs2, h₄⟩ := bind_ok h₃
        obtain ⟨u, s₄, hsk, h₅⟩ := bind_ok h₄
        exact (throwErr_ne_ok h₅).elim

/-- Success of read_channel_range advances the cursor by 8 bytes. -/
theorem read_channel_range_ok {s : PStream} {v : (Nat × Nat) × (Nat × Nat)} {s' : PStream}
    (h : read_channel_range s = .ok (v, s')) :
    s' = ⟨s.data, s.pos + 8, s.warns⟩ := by
  obtain ⟨bs, s₁, h₁, h₂⟩ := bind_ok h
  obtain ⟨_, _, hs₁⟩ := readExact_ok h₁
  rw [(pure_ok h₂).2, hs₁]

/-- The per-channel blending-ranges loop advances the cursor by 8 bytes
per iteration. -/
theorem ranges_loop_ok : ∀ {n : Nat} {s : PStream} {v : List ((Nat × Nat) × (Nat × Nat))}
    {s' : PStream}, readChannelRangesLoop n s = .ok (v, s') →
    s' = ⟨s.data, s.pos + 8 * n, s.warns⟩ := by
  intro n
  induction n with
  | zero =>
    intro s v s' h
    rw [(pure_ok h).2]
    cases s
    simp
  | succ k ih =>
    intro s v s' h
    unfold readChannelRangesLoop at h
    obtain ⟨r, s₁, h₁, h₂⟩ := bind_ok h
    obtain ⟨rest, s₂, hrest, h₃⟩ := bind_ok h₂
    have e1 := read_channel_range_ok h₁
    have e2 := ih hrest
    rw [(pure_ok h₃).2, e2, e1]
    simp only [PStream.mk.injEq]
    refine ⟨trivial, by ring, trivial⟩

/-- Success of the blending-ranges decoder: after the 4-byte length field
it consumes 0 bytes when the declared length L is 0, and 8*max(L/8,1)
bytes otherwise. -/
theorem blending_ok_pos {s : PStream} {v : LayerBlendingRanges} {s' : PStream}
    (h : _read_layer_blending_ranges s = .ok (v, s')) :
    s'.pos = s.pos + 4 + (if u32At s.data s.pos = 0 then 0
      else 8 * max (u32At s.data s.pos / 8) 1) := by
  unfold _read_layer_blending_ranges at h
  obtain ⟨len, s₁, h₁, h₂⟩ := bind_ok h
  obtain ⟨hsz, hle, hs₁⟩ := readU32_ok h₁
  have e1 : s₁.pos = s.pos + 4 := by rw [hs₁]
  split at h₂
  · next hne =>
    obtain ⟨r, s₂, hr, h₃⟩ := bind_ok h₂
    obtain ⟨cr, s₃, hcr, h₄⟩ := bind_ok h₃
    have e2 : s₂.pos = s₁.pos + 8 := by rw [read_channel_range_ok hr]
    have e3 : s₃.pos = s₂.pos + 8 * (len / 8 - 1) := by rw [ranges_loop_ok hcr]
    have e4 : s'.pos = s₃.pos := by rw [(pure_ok h₄).2]
    subst hsz
    rw [if_neg hne]
    rcases Nat.eq_zero_or_pos (u32At s.data s.pos / 8) with h0 | h0
    · rw [h0]
      simp only [Nat.zero_max]
      omega
    · rw [Nat.max_eq_left h0]
      omega
  · next hz =>
    have e2 : s'.pos = s₁.pos := by rw [(pure_ok h₂).2]
    have h0 : len = 0 := by omega
    subst hsz
    rw [if_pos h0]
    omega

/-- The channel-info loop advances the cursor by 6 bytes per channel and
preserves the data and the warnings. -/
theorem channel_infos_ok : ∀ {n : Nat} {s : PStream} {v : List ChannelInfo}
    {s' : PStream}, readChannelInfosLoop n s = .ok (v, s') →
    s' = ⟨s.data, s.pos + 6 * n, s.warns⟩ := by
  intro n
  induction n with
  | zero =>
    intro s v s' h
    rw [(pure_ok h).2]
    cases s
    simp
  | succ k ih =>
    intro s v s' h
    unfold readChannelInfosLoop at h
    obtain ⟨bs, s₁, h₁, h₂⟩ := bind_ok h
    obtain ⟨rest, s₂, hrest, h₃⟩ := bind_ok h₂
    obtain ⟨_, _, hs₁⟩ := readExact_ok h₁
    have e2 := ih hrest
    rw [(pure_ok h₃).2, e2, hs₁]
    simp only [PStream.mk.injEq]
    refine ⟨trivial, by ring, trivial⟩

/-- Success of the global-mask-info decoder advances the cursor by exactly
max 17 (declared length) bytes: the code reconciles the declared length
against all 17 bytes consumed, the 4-byte length field included. -/
theorem gmi_ok_pos {s : PStream} {v : GlobalMaskInfo} {s' : PStream}
    (h : _read_global_mask_info s = .ok (v, s')) :
    s'.pos = s.pos + max 17 (u32At s.data s.pos) := by
  unfold _read_global_mask_info at h
  obtain ⟨sp, s₀, ht0, h₁⟩ := bind_ok h
  obtain ⟨hsp, hs₀⟩ := tellM_ok ht0
  obtain ⟨bs, s₁, hbs, h₂⟩ := bind_ok h₁
  obtain ⟨hbsv, hle, hs₁⟩ := readExact_ok hbs
  obtain ⟨t, s₂, ht, h₃⟩ := bind_ok h₂
  obtain ⟨htv, hs₂⟩ := tellM_ok ht
  have hlen : beAt bs 0 4 = u32At s.data s.pos := by
    rw [hbsv, hs₀, beAt_bytesAt s.data s.pos 17 0 4 (by omega)]
    rw [Nat.add_zero]
    rfl
  have e0 : s₀.pos = s.pos := by rw [hs₀]
  have e1 : s₁.pos = s₀.pos + 17 := by rw [hs₁]
  have e2 : s₂.pos = s₁.pos := by rw [hs₂]
  rw [hlen] at h₃
  simp only [gt_iff_lt] at h₃
  split at h₃
  · next hpos =>
    obtain ⟨u, s₃, hsk, h₄⟩ := bind_ok h₃
    obtain ⟨hge, hs₃⟩ := seekRel_ok hsk
    have e4 : s'.pos = s₃.pos := by rw [(pure_ok h₄).2]
    have e3 : s₃.pos = ((s₂.pos : Int) +
        ((u32At s.data s.pos : Int) - ((t : Int) - (sp : Int)))).toNat := by rw [hs₃]
    rw [htv, hsp] at e3
    omega
  · next hneg =>
    obtain ⟨u, s₃, hpu, h₄⟩ := bind_ok h₃
    have e3 : s₃.pos = s₂.pos := by rw [(pure_ok hpu).2]
    have e4 : s'.pos = s₃.pos := by rw [(pure_ok h₄).2]
    rw [htv, hsp] at hneg
    omega

/-- Success of the top-level section reader always lands the cursor at
exactly origin + declared length (origin being the position right after
the 4-byte length field), because of the final unconditional seek. -/
theorem read_ok_pos {s : PStream} {v : LayerAndMaskInfo} {s' : PStream}
    (h : readLayerAndMaskInfo s = .ok (v, s')) :
    s'.pos = s.pos + 4 + u32At s.data s.pos := by
  unfold readLayerAndMaskInfo at h
  obtain ⟨L, s₁, hL, h₁⟩ := bind_ok h
  obtain ⟨hLv, hle, hs₁⟩ := readU32_ok hL
  obtain ⟨sp, s₂, ht, h₂⟩ := bind_ok h₁
  obtain ⟨hsp, hs₂⟩ := tellM_ok ht
  obtain ⟨lys, s₃, hlys, h₃⟩ := bind_ok h₂
  obtain ⟨g, s₄, hg, h₄⟩ := bind_ok h₃
  obtain ⟨c1, s₅, ht1, h₅⟩ := bind_ok h₄
  obtain ⟨hc1, hs₅⟩ := tellM_ok ht1
  obtain ⟨tb, s₆, htb, h₆⟩ := bind_ok h₅
  obtain ⟨c2, s₇, ht2, h₇⟩ := bind_ok h₆
  obtain ⟨hc2, hs₇⟩ := tellM_ok ht2
  obtain ⟨u, s₈, hsk, h₈⟩ := bind_ok h₇
  obtain ⟨hge, hs₈⟩ := seekRel_ok hsk
  have e8 : s₈.pos = ((s₇.pos : Int) +
      ((L : Int) - ((c2 : Int) - (sp : Int)))).toNat := by rw [hs₈]
  have efin : s'.pos = s₈.pos := by rw [(pure_ok h₈).2]
  have e1 : s₁.pos = s.pos + 4 := by rw [hs₁]
  have e7 : s₇.pos = s₆.pos := by rw [hs₇]
  subst hLv
  rw [hc2] at e8
  rw [hsp] at e8
  omega

/-- Hoist a bind out of the branches of a conditional (the shape produced
by do-notation join points). -/
theorem ite_hoist {α : Type} {c : Prop} [Decidable c] (m₁ m₂ : ReadM Unit)
    (k : Unit → ReadM α) :
    (if c then (m₁ >>= k) else (m₂ >>= k)) = ((if c then m₁ else m₂) >>= k) := by
  split <;> rfl

/-- A conditional throw that succeeded took the else branch. -/
theorem ite_throw_ok {c : Prop} [Decidable c] {e : PError} {s : PStream} {u : Unit}
    {s' : PStream} (h : (if c then throwErr e else pure ()) s = .ok (u, s')) :
    ¬c ∧ s' = s := by
  split at h
  · exact (throwErr_ne_ok h).elim
  · next hc => exact ⟨hc, (pure_ok h).2⟩

/-- Channel count field of a layer record starting at position p. -/
def lrChannels (data : List Nat) (p : Nat) : Nat :=
  u16At data (p + 16)

/-- Position of the extra-data origin of a layer record starting at p
(right after the extra-length field). -/
def lrOrigin (data : List Nat) (p : Nat) : Nat :=
  p + 34 + 6 * lrChannels data p

/-- Declared extra-data length field of a layer record starting at p. -/
def lrExtraLen (data : List Nat) (p : Nat) : Nat :=
  u32At data (p + 30 + 6 * lrChannels data p)

/-- Success of the layer-record decoder always lands the cursor at exactly
origin + extraLength (origin = position after the extra-length field),
because of the final unconditional seek: there is no clamping, the seek
moves backward whenever the sub-fields over-consumed. -/
theorem layer_record_ok_pos {s : PStream} {v : LayerRecord} {s' : PStream}
    (h : _read_layer_record s = .ok (v, s')) :
    s'.pos = lrOrigin s.data s.pos + lrExtraLen s.data s.pos := by
  unfold _read_layer_record at h
  obtain ⟨bs, s₁, hbox, h₁⟩ := bind_ok h
  obtain ⟨hbsv, hle16, hs₁⟩ := readExact_ok hbox
  obtain ⟨num, s₂, hnum, h₂⟩ := bind_ok h₁
  obtain ⟨hnumv, hle2, hs₂⟩ := readU16_ok hnum
  obtain ⟨cis, s₃, hcis, h₃⟩ := bind_ok h₂
  have hs₃ := channel_infos_ok hcis
  obtain ⟨sig, s₄, hsig, h₄⟩ := bind_ok h₃
  rw [readUpTo_eq] at hsig
  simp only [Except.ok.injEq, Prod.mk.injEq] at hsig
  simp only [ne_eq] at h₄
  rw [ite_hoist] at h₄
  obtain ⟨u₅, s₅, hif₁, h₅⟩ := bind_ok h₄
  obtain ⟨hsigeq, hs₅⟩ := ite_throw_ok hif₁
  simp only [not_not] at hsigeq
  obtain ⟨bm, s₆, hbm, h₆⟩ := bind_ok h₅
  rw [readUpTo_eq] at hbm
  simp only [Except.ok.injEq, Prod.mk.injEq] at hbm
  obtain ⟨bmd, s₆', hdec, h₆'⟩ := bind_ok h₆
  obtain ⟨hbmdv, hs₆'⟩ := decodeAscii_ok hdec
  rw [ite_hoist] at h₆'
  obtain ⟨u₇, s₇, hif₂, h₇⟩ := bind_ok h₆'
  obtain ⟨e7p, e7d⟩ := ite_warn_ok hif₂
  obtain ⟨bs2, s₈, hbs2, h₈⟩ := bind_ok h₇
  obtain ⟨hbs2v, hle8, hs₈⟩ := readExact_ok hbs2
  rw [ite_hoist] at h₈
  obtain ⟨u₉, s₉, hif₃, h₉⟩ := bind_ok h₈
  obtain ⟨e9p, e9d⟩ := ite_warn_ok hif₃
  obtain ⟨start, s₁₀, hst, h₁₀⟩ := bind_ok h₉
  obtain ⟨hstv, hs₁₀⟩ := tellM_ok hst
  obtain ⟨mk, s₁₁, hmk, h₁₁⟩ := bind_ok h₁₀
  obtain ⟨br, s₁₂, hbr, h₁₂⟩ := bind_ok h₁₁
  obtain ⟨nm, s₁₃, hnm, h₁₃⟩ := bind_ok h₁₂
  obtain ⟨t1, s₁₄, ht1, h₁₄⟩ := bind_ok h₁₃
  obtain ⟨ht1v, hs₁₄⟩ := tellM_ok ht1
  obtain ⟨tbs, s₁₅, htbs, h₁₅⟩ := bind_ok h₁₄
  obtain ⟨t2, s₁₆, ht2, h₁₆⟩ := bind_ok h₁₅
  obtain ⟨ht2v, hs₁₆⟩ := tellM_ok ht2
  obtain ⟨u₁₇, s₁₇, hsk, h₁₇⟩ := bind_ok h₁₆
  obtain ⟨hge, hs₁₇⟩ := seekRel_ok hsk
  have efin : s'.pos = s₁₇.pos := by rw [(pure_ok h₁₇).2]
  -- position and data bookkeeping
  have e1p : s₁.pos = s.pos + 16 := by rw [hs₁]
  have e1d : s₁.data = s.data := by rw [hs₁]
  have e2p : s₂.pos = s₁.pos + 2 := by rw [hs₂]
  have e2d : s₂.data = s₁.data := by rw [hs₂]
  have e3p : s₃.pos = s₂.pos + 6 * num := by rw [hs₃]
  have e3d : s₃.data = s₂.data := by rw [hs₃]
  have hsiglen : sig.length = 4 := by rw [hsigeq]; rfl
  have e4p : s₄.pos = s₃.pos + 4 := by
    rw [← hsig.2]
    show s₃.pos + (bytesAt s₃.data s₃.pos 4).length = s₃.pos + 4
    rw [hsig.1, hsiglen]
  have e4d : s₄.data = s₃.data := by rw [← hsig.2]
  have e5p : s₅.pos = s₄.pos := by rw [hs₅]
  have e5d : s₅.data = s₄.data := by rw [hs₅]
  have e6p : s₆.pos = s₅.pos + (bytesAt s₅.data s₅.pos 4).length := by rw [← hbm.2]
  have e6d : s₆.data = s₅.data := by rw [← hbm.2]
  have e6'p : s₆'.pos = s₆.pos := by rw [hs₆']
  have e6'd : s₆'.data = s₆.data := by rw [hs₆']
  have e8p : s₈.pos = s₇.pos + 8 := by rw [hs₈]
  have e8d : s₈.data = s₇.data := by rw [hs₈]
  -- the blend-mode read returned 4 bytes, or the following readExact 8
  -- could not have succeeded
  have hblen : (bytesAt s₅.data s₅.pos 4).length = 4 := by
    have h78 := hle8
    rw [e7d, e6'd, e6d] at h78
    rw [e7p, e6'p, e6p] at h78
    have hmin := bytesAt_length s₅.data s₅.pos 4
    omega
  rw [hblen] at e6p
  -- the extra-length field read from the original data
  have hnum' : num = u16At s.data (s.pos + 16) := by
    rw [hnumv, e1d, e1p]
  have e7pos : s₇.pos = s.pos + 26 + 6 * num := by omega
  have hextra : beAt bs2 4 4 = u32At s.data (s.pos + 30 + 6 * num) := by
    rw [hbs2v, e7d, e6'd, e6d, e5d, e4d, e3d, e2d, e1d]
    rw [beAt_bytesAt s.data s₇.pos 8 4 4 (by omega)]
    rw [e7pos]
    show beNat (bytesAt s.data (s.pos + 26 + 6 * num + 4) 4) =
      beNat (bytesAt s.data (s.pos + 30 + 6 * num) 4)
    have harg : s.pos + 26 + 6 * num + 4 = s.pos + 30 + 6 * num := by omega
    rw [harg]
  -- the final seek
  have e17 : s₁₇.pos = ((s₁₆.pos : Int) +
      ((beAt bs2 4 4 : Int) - ((t2 : Int) - (start : Int)))).toNat := by rw [hs₁₇]
  have e16p : s₁₆.pos = s₁₅.pos := by rw [hs₁₆]
  have estart : start = s.pos + 34 + 6 * num := by
    rw [hstv]
    omega
  rw [ht2v] at e17
  unfold lrOrigin lrExtraLen lrChannels
  rw [← hnum']
  rw [hextra] at e17
  omega

/-- Once cumulative consumption reaches the budget, the scanner stops at a
block boundary, consuming nothing further. -/
theorem tbLoop_stop {startPos : Nat} {budget : Int} {acc : List (List Nat × List Nat)}
    {s : PStream} (h : ¬((s.pos : Int) - (startPos : Int) < budget)) :
    tbLoop startPos budget acc s = .ok (acc, s) := by
  rw [tbLoop]
  rw [dif_neg h]

/-- A 4-byte peek that matches neither signature is rewound: the block
reader returns none with the stream unchanged. -/
theorem block_unpeek {s : PStream}
    (hlen : (bytesAt s.data s.pos 4).length = 4)
    (hA : bytesAt s.data s.pos 4 ≠ sig8BIM)
    (hB : bytesAt s.data s.pos 4 ≠ sig8B64) :
    _read_additional_layer_info_block s = .ok (none, s) := by
  obtain ⟨d, p, w⟩ := s
  unfold _read_additional_layer_info_block
  simp only [bind_apply, readUpTo_eq]
  rw [if_pos ⟨hA, hB⟩]
  simp only [bind_apply]
  unfold seekRel
  rw [hlen]
  rw [if_pos (by push_cast; omega)]
  have hp : (((p + 4 : Nat) : Int) + (-4)).toNat = p := by omega
  rw [hp]
  rfl

/-- The while loop's final state either is its entry state or is the result
of one whole block-reader step that began strictly under the budget. -/
theorem tbLoop_last : ∀ (fuel startPos : Nat) (budget : Int)
    (acc : List (List Nat × List Nat)) (s : PStream)
    (bs : List (List Nat × List Nat)) (s' : PStream),
    startPos + budget.toNat - s.pos ≤ fuel →
    tbLoop startPos budget acc s = .ok (bs, s') →
    s' = s ∨ ∃ sMid r, ((sMid.pos : Int) - (startPos : Int) < budget) ∧
      _read_additional_layer_info_block sMid = .ok (r, s') := by
  intro fuel
  induction fuel with
  | zero =>
    intro startPos budget acc s bs s' hfuel h
    rw [tbLoop, dif_neg (by omega)] at h
    simp only [Except.ok.injEq, Prod.mk.injEq] at h
    exact Or.inl h.2.symm
  | succ f ih =>
    intro startPos budget acc s bs s' hfuel h
    rw [tbLoop] at h
    by_cases hcond : ((s.pos : Int) - (startPos : Int) < budget)
    · rw [dif_pos hcond] at h
      split at h
      · exact absurd h (by simp)
      · next s₁ heq =>
        simp only [Except.ok.injEq, Prod.mk.injEq] at h
        exact Or.inr ⟨s, none, hcond, by rw [heq, h.2]⟩
      · next b s₁ heq =>
        have h8 := block_some_pos heq
        rcases ih startPos budget (acc ++ [b]) s₁ bs s' (by omega) h with h1 | h2
        · exact Or.inr ⟨s, some b, hcond, by rw [heq, h1]⟩
        · exact Or.inr h2
    · rw [dif_neg hcond] at h
      simp only [Except.ok.injEq, Prod.mk.injEq] at h
      exact Or.inl h.2.symm

/-- The scanner's final state follows from its entry state by whole-block
steps only; the last one started strictly under the budget. -/
theorem scan_last {B : Int} {s : PStream} {bs : List (List Nat × List Nat)}
    {s' : PStream} (h : _read_layer_tagged_blocks B s = .ok (bs, s')) :
    s' = s ∨ ∃ sMid r, ((sMid.pos : Int) - (s.pos : Int) < B) ∧
      _read_additional_layer_info_block sMid = .ok (r, s') := by
  unfold _read_layer_tagged_blocks at h
  exact tbLoop_last (s.pos + B.toNat) s.pos B [] s bs s' (by omega) h

/-- A conditional forward seek that succeeded: final position in both
cases. -/
theorem ite_seek_ok {c : Prop} [Decidable c] {d : Int} {s : PStream} {u : Unit}
    {s' : PStream} (h : (if c then seekRel d else pure ()) s = .ok (u, s')) :
    (c ∧ 0 ≤ (s.pos : Int) + d ∧ s' = ⟨s.data, ((s.pos : Int) + d).toNat, s.warns⟩) ∨
      (¬c ∧ s' = s) := by
  split at h
  · next hc =>
    obtain ⟨hge, hs⟩ := seekRel_ok h
    exact Or.inl ⟨hc, hge, hs⟩
  · next hc => exact Or.inr ⟨hc, (pure_ok h).2⟩

/-- Success of the channel-step on a Raw channel with the full payload
available: the payload is exactly (w*h).toNat bytes and afterwards the
declared-length reconciliation skips max(dataLength - bytesRead - 2, 0)
bytes, where bytesRead counts the 2 tag bytes too. -/
theorem channel_step_ok_raw {w h : Int} {ci : ChannelInfo} {s : PStream}
    {r : Option ChannelData} {s' : PStream}
    (hrun : readChannelStep w h ci s = .ok (r, s'))
    (htag : u16At s.data s.pos = 0)
    (hwh : 0 ≤ w * h)
    (havail : s.pos + 2 + (w * h).toNat ≤ s.data.length) :
    r = some ⟨0, bytesAt s.data (s.pos + 2) (w * h).toNat⟩ ∧
      (bytesAt s.data (s.pos + 2) (w * h).toNat).length = (w * h).toNat ∧
      s'.pos = s.pos + 2 + (w * h).toNat +
        ((ci.length : Int) - ((2 : Nat) + (w * h).toNat : Nat) - 2).toNat := by
  unfold readChannelStep at hrun
  obtain ⟨sp, s₀, ht0, h₁⟩ := bind_ok hrun
  obtain ⟨hsp, hs₀⟩ := tellM_ok ht0
  obtain ⟨comp, s₂, hcomp, h₂⟩ := bind_ok h₁
  obtain ⟨hcompv, hle2, hs₂⟩ := readU16_ok hcomp
  rw [hs₀] at hcompv hs₂
  rw [htag] at hcompv
  simp only [gt_iff_lt] at h₂
  rw [if_pos (show comp = compressionRAW by rw [hcompv]; rfl)] at h₂
  obtain ⟨dat, s₄, hdat, h₃⟩ := bind_ok h₂
  rw [fpRead_nonneg hwh, readUpTo_eq] at hdat
  simp only [Except.ok.injEq, Prod.mk.injEq] at hdat
  obtain ⟨res, s₄', hres, h₄⟩ := bind_ok h₃
  obtain ⟨hresv, hs₄'⟩ := pure_ok hres
  obtain ⟨t, s₅, ht, h₅⟩ := bind_ok h₄
  obtain ⟨htv, hs₅⟩ := tellM_ok ht
  rw [ite_hoist] at h₅
  obtain ⟨u, s₆, hif, h₆⟩ := bind_ok h₅
  have hfin1 : r = res := (pure_ok h₆).1
  have hfin2 : s' = s₆ := (pure_ok h₆).2
  have hdlen : (bytesAt s₂.data s₂.pos (w * h).toNat).length = (w * h).toNat := by
    apply bytesAt_length_of_le
    rw [hs₂]
    simpa using havail
  have e2d : s₂.data = s.data := by rw [hs₂]
  have e2p : s₂.pos = s.pos + 2 := by rw [hs₂]
  have hvalue : r = some ⟨0, bytesAt s.data (s.pos + 2) (w * h).toNat⟩ := by
    rw [hfin1, hresv, ← hdat.1, hcompv, e2d, e2p]
  have e4p : s₄.pos = s.pos + 2 + (w * h).toNat := by
    rw [← hdat.2]
    show s₂.pos + (bytesAt s₂.data s₂.pos (w * h).toNat).length = _
    rw [hdlen, e2p]
  refine ⟨hvalue, by rw [e2d, e2p] at hdlen; exact hdlen, ?_⟩
  have efin : s'.pos = s₆.pos := by rw [hfin2]
  have ep45 : s₄'.pos = s₄.pos := by rw [hs₄']
  have e5p : s₅.pos = s₄'.pos := by rw [hs₅]
  rcases ite_seek_ok hif with ⟨hc, hge, hs₆⟩ | ⟨hc, hs₆⟩
  · have e6 : s₆.pos = ((s₅.pos : Int) +
        ((ci.length : Int) - ((t : Int) - (sp : Int)) - 2)).toNat := by rw [hs₆]
    omega
  · have e6 : s₆.pos = s₅.pos := by rw [hs₆]
    omega

/-- Success of the channel-step on a PackBits channel with the full
scan-line table and payload available: after the tag it reads the
2*h-byte count table and then exactly sum(counts) bytes, and afterwards
the declared-length reconciliation skips max(dataLength - bytesRead - 2, 0)
bytes, where bytesRead counts the 2 tag bytes too. -/
theorem channel_step_ok_packbits {w h : Int} {ci : ChannelInfo} {s : PStream}
    {r : Option ChannelData} {s' : PStream}
    (hrun : readChannelStep w h ci s = .ok (r, s'))
    (htag : u16At s.data s.pos = 1)
    (hpay : s.pos + 2 + 2 * h.toNat +
      (parseU16s (bytesAt s.data (s.pos + 2) (2 * h.toNat))).sum ≤ s.data.length) :
    r = some ⟨1, bytesAt s.data (s.pos + 2 + 2 * h.toNat)
        (parseU16s (bytesAt s.data (s.pos + 2) (2 * h.toNat))).sum⟩ ∧
      s'.pos = s.pos + 2 + 2 * h.toNat +
        (parseU16s (bytesAt s.data (s.pos + 2) (2 * h.toNat))).sum +
        ((ci.length : Int) - ((2 : Nat) + 2 * h.toNat +
          (parseU16s (bytesAt s.data (s.pos + 2) (2 * h.toNat))).sum : Nat) - 2).toNat := by
  unfold readChannelStep at hrun
  obtain ⟨sp, s₀, ht0, h₁⟩ := bind_ok hrun
  obtain ⟨hsp, hs₀⟩ := tellM_ok ht0
  obtain ⟨comp, s₂, hcomp, h₂⟩ := bind_ok h₁
  obtain ⟨hcompv, hle2, hs₂⟩ := readU16_ok hcomp
  rw [hs₀] at hcompv hs₂
  rw [htag] at hcompv
  simp only [gt_iff_lt] at h₂
  rw [if_neg (show ¬comp = compressionRAW by rw [hcompv]; decide)] at h₂
  rw [if_pos (show comp = compressionPackBits by rw [hcompv]; rfl)] at h₂
  obtain ⟨bc, s₃, hbc0, h₃⟩ := bind_ok h₂
  unfold read_be_array_H at hbc0
  obtain ⟨cb, s₃', hcb, hbc1⟩ := bind_ok hbc0
  obtain ⟨hcbv, hcble, hs₃'⟩ := readExact_ok hcb
  obtain ⟨hbcv, hs₃⟩ := pure_ok hbc1
  have e2d : s₂.data = s.data := by rw [hs₂]
  have e2p : s₂.pos = s.pos + 2 := by rw [hs₂]
  have hbce : bc = parseU16s (bytesAt s.data (s.pos + 2) (2 * h.toNat)) := by
    rw [hbcv, hcbv, e2d, e2p]
  have e3d : s₃.data = s.data := by rw [hs₃, hs₃', e2d]
  have e3p : s₃.pos = s.pos + 2 + 2 * h.toNat := by
    rw [hs₃, hs₃']
    show s₂.pos + 2 * h.toNat = s.pos + 2 + 2 * h.toNat
    rw [e2p]
  have e3w : s₃.warns = s.warns := by rw [hs₃, hs₃', hs₂]
  obtain ⟨dat, s₄, hdat, h₄⟩ := bind_ok h₃
  rw [fpRead_nonneg (Int.natCast_nonneg bc.sum)] at hdat
  rw [show ((bc.sum : Int)).toNat = bc.sum from by omega] at hdat
  rw [readUpTo_eq] at hdat
  simp only [Except.ok.injEq, Prod.mk.injEq] at hdat
  have hdlen : (bytesAt s₃.data s₃.pos bc.sum).length = bc.sum := by
    apply bytesAt_length_of_le
    rw [e3d, e3p, hbce]
    exact hpay
  have hdate : dat = bytesAt s.data (s.pos + 2 + 2 * h.toNat)
      (parseU16s (bytesAt s.data (s.pos + 2) (2 * h.toNat))).sum := by
    rw [← hdat.1, e3d, e3p, hbce]
  have e4p : s₄.pos = s.pos + 2 + 2 * h.toNat +
      (parseU16s (bytesAt s.data (s.pos + 2) (2 * h.toNat))).sum := by
    rw [← hdat.2]
    show s₃.pos + (bytesAt s₃.data s₃.pos bc.sum).length = _
    rw [hdlen, e3p, hbce]
  obtain ⟨res, s₄', hres, h₅⟩ := bind_ok h₄
  obtain ⟨hresv, hs₄'⟩ := pure_ok hres
  obtain ⟨t, s₅, ht, h₆⟩ := bind_ok h₅
  obtain ⟨htv, hs₅⟩ := tellM_ok ht
  rw [ite_hoist] at h₆
  obtain ⟨u, s₆, hif, h₇⟩ := bind_ok h₆
  have hfin1 : r = res := (pure_ok h₇).1
  have hfin2 : s' = s₆ := (pure_ok h₇).2
  have hvalue : r = some ⟨1, bytesAt s.data (s.pos + 2 + 2 * h.toNat)
      (parseU16s (bytesAt s.data (s.pos + 2) (2 * h.toNat))).sum⟩ := by
    rw [hfin1, hresv, hcompv, hdate]
  refine ⟨hvalue, ?_⟩
  have efin : s'.pos = s₆.pos := by rw [hfin2]
  have ep45 : s₄'.pos = s₄.pos := by rw [hs₄']
  have e5p : s₅.pos = s₄'.pos := by rw [hs₅]
  rcases ite_seek_ok hif with ⟨hc, hge, hs₆⟩ | ⟨hc, hs₆⟩
  · have e6 : s₆.pos = ((s₅.pos : Int) +
        ((ci.length : Int) - ((t : Int) - (sp : Int)) - 2)).toNat := by rw [hs₆]
    omega
  · have e6 : s₆.pos = s₅.pos := by rw [hs₆]
    omega

/-- The channel step on a Raw-tagged channel never raises, whatever the
width and height (a negative w*h reads the whole remainder; the
reconciliation skip is forward-only). -/
theorem channel_step_total {w h : Int} {ci : ChannelInfo} {s : PStream}
    (h2 : s.pos + 2 ≤ s.data.length) (htag : u16At s.data s.pos = 0) :
    ∃ res s', readChannelStep w h ci s = .ok (res, s') := by
  unfold readChannelStep
  simp only [bind_apply, tellM_eq, readU16_eq_of h2, htag, gt_iff_lt]
  rw [if_pos (show (0 : Nat) = compressionRAW from rfl)]
  rcases lt_or_le (w * h) 0 with hneg | hpos
  · simp only [bind_apply, fpRead_neg hneg, readUpTo_eq, pure_apply, tellM_eq]
    rw [ite_hoist, bind_apply]
    split
    · exact ⟨_, _, rfl⟩
    · next e hrem =>
      exfalso
      split at hrem
      · next hc =>
        rw [seekRel_eq_of (by omega)] at hrem
        exact absurd hrem (by simp)
      · rw [pure_apply] at hrem
        exact absurd hrem (by simp)
  · simp only [bind_apply, fpRead_nonneg hpos, readUpTo_eq, pure_apply, tellM_eq]
    rw [ite_hoist, bind_apply]
    split
    · exact ⟨_, _, rfl⟩
    · next e hrem =>
      exfalso
      split at hrem
      · next hc =>
        rw [seekRel_eq_of (by omega)] at hrem
        exact absurd hrem (by simp)
      · rw [pure_apply] at hrem
        exact absurd hrem (by simp)

/-- The merged-image channel loop with Raw compression reads exactly
w*h bytes per channel, with no reconciliation of any kind. -/
theorem merged_loop_raw (W H : Nat) : ∀ (k : Nat) (counts : List (List Nat)) (s : PStream),
    s.pos + k * (W * H) ≤ s.data.length →
    ∃ v, readMergedLoop 0 W H counts k s =
        .ok (v, ⟨s.data, s.pos + k * (W * H), s.warns⟩) ∧ v.length = k := by
  intro k
  induction k with
  | zero =>
    intro counts s havail
    refine ⟨[], ?_, rfl⟩
    show (pure [] : ReadM (List ChannelData)) s = _
    rw [pure_apply]
    obtain ⟨d, p, ws⟩ := s
    simp
  | succ k ih =>
    intro counts s havail
    have hsm : (k + 1) * (W * H) = k * (W * H) + W * H := Nat.succ_mul k (W * H)
    have hlen : (bytesAt s.data s.pos (W * H)).length = W * H :=
      bytesAt_length_of_le (by omega)
    obtain ⟨v, hv, hvl⟩ := ih counts ⟨s.data, s.pos + W * H, s.warns⟩ (by simp; omega)
    refine ⟨ChannelData.mk 0 (bytesAt s.data s.pos (W * H)) :: v, ?_, by simp [hvl]⟩
    simp only [readMergedLoop]
    rw [if_pos (show (0 : Nat) = compressionRAW from rfl)]
    simp only [bind_apply, readUpTo_eq, hlen]
    rw [hv]
    simp only [pure_apply]
    simp only [Except.ok.injEq, Prod.mk.injEq, PStream.mk.injEq]
    refine ⟨trivial, trivial, by omega, trivial⟩
  
/-- read_image_data with a Raw compression tag and the full payload
available consumes exactly 2 + n*w*h bytes: no reconciliation against any
declared length exists for merged-image channels. -/
theorem read_image_data_raw (hd : Header) {s : PStream}
    (htag : u16At s.data s.pos = 0) (h2 : s.pos + 2 ≤ s.data.length)
    (havail : s.pos + 2 + hd.number_of_channels * (hd.width * hd.height) ≤ s.data.length) :
    ∃ v, read_image_data hd s =
        .ok (v, ⟨s.data, s.pos + 2 + hd.number_of_channels * (hd.width * hd.height),
          s.warns⟩) ∧ v.length = hd.number_of_channels := by
  unfold read_image_data
  simp only [bind_apply, readU16_eq_of h2, htag]
  rw [if_neg (show ¬(0 : Nat) = compressionPackBits by decide)]
  obtain ⟨v, hv, hvl⟩ := merged_loop_raw hd.width hd.height hd.number_of_channels []
    ⟨s.data, s.pos + 2, s.warns⟩ (by simp; omega)
  refine ⟨v, ?_, hvl⟩
  simp only [bind_apply, pure_apply]
  rw [hv]

/-- A mask size outside 0/20/36 warns, skips size bytes, and returns a
null mask; the cursor ends 4 + size bytes past the mask-record start. -/
theorem mask_invalid {sz : Nat} (h0 : sz ≠ 0) (h20 : sz ≠ 20) (h36 : sz ≠ 36)
    (s : PStream) (h4 : s.pos + 4 ≤ s.data.length)
    (hszv : u32At s.data s.pos = sz) :
    _read_layer_mask_data s = .ok (none, ⟨s.data, s.pos + 4 + sz,
      s.warns ++ ["Invalid layer data size: " ++ toString sz]⟩) := by
  unfold _read_layer_mask_data
  simp only [bind_apply, readU32_eq_of h4, hszv]
  rw [if_pos ⟨h0, h20, h36⟩]
  simp only [bind_apply, warnM_eq]
  unfold seekRel
  rw [if_pos (by omega)]
  rw [show (((s.pos + 4 : Nat) : Int) + ((sz : Nat) : Int)).toNat = s.pos + 4 + sz
    from by omega]
  rfl

/-- An unrecognized compression tag warns and continues: the channel step
succeeds with no data recorded and the warning collected. -/
theorem channel_step_unknown {w h : Int} {ci : ChannelInfo} {s : PStream}
    (h2 : s.pos + 2 ≤ s.data.length)
    (hk : compressionIsKnown (u16At s.data s.pos) = false) :
    ∃ s', readChannelStep w h ci s = .ok (none, s') ∧
      s'.warns = s.warns ++ ["Unknown compression type: " ++
        toString (u16At s.data s.pos)] := by
  have hne0 : ¬u16At s.data s.pos = compressionRAW := by
    intro hcontra
    rw [hcontra] at hk
    simp [compressionIsKnown, compressionRAW] at hk
  have hne1 : ¬u16At s.data s.pos = compressionPackBits := by
    intro hcontra
    rw [hcontra] at hk
    simp [compressionIsKnown, compressionPackBits] at hk
  unfold readChannelStep
  simp only [bind_apply, tellM_eq, readU16_eq_of h2, gt_iff_lt]
  rw [if_neg hne0, if_neg hne1, if_neg (by rw [hk]; simp)]
  simp only [bind_apply, warnM_eq, pure_apply, tellM_eq]
  rw [ite_hoist, bind_apply]
  split
  · next a s₁ hrem =>
    rcases ite_seek_ok hrem with ⟨hc, hge, hs₁⟩ | ⟨hc, hs₁⟩ <;>
      exact ⟨s₁, by rw [pure_apply], by rw [hs₁]⟩
  · next e hrem =>
    exfalso
    split at hrem
    · next hc =>
      rw [seekRel_eq_of (by omega)] at hrem
      exact absurd hrem (by simp)
    · rw [pure_apply] at hrem
      exact absurd hrem (by simp)

/-- A layer record with given geometry and channels (remaining fields are
irrelevant to the channel-image pass). -/
def mkGeomLayer (t l b r : Int) (cs : List ChannelInfo) : LayerRecord :=
  ⟨t, l, b, r, cs.length, cs, [110, 111, 114, 109], 255, 0, 0, none, ⟨none, []⟩, [], []⟩

/-- The channel-image pass over a single Raw-tagged channel completes
whatever the layer geometry. -/
theorem channel_image_single_total {t l b r : Int} {ci : ChannelInfo} {s : PStream}
    (h2 : s.pos + 2 ≤ s.data.length) (htag : u16At s.data s.pos = 0) :
    ∃ v s', _read_channel_image_data (mkGeomLayer t l b r [ci]) s = .ok (v, s') := by
  obtain ⟨res, s₂, hstep⟩ := @channel_step_total
    (LayerRecord.width (mkGeomLayer t l b r [ci]))
    (LayerRecord.height (mkGeomLayer t l b r [ci])) ci s h2 htag
  show ∃ v s', readChannelsLoop (LayerRecord.width (mkGeomLayer t l b r [ci]))
    (LayerRecord.height (mkGeomLayer t l b r [ci])) [ci] s = .ok (v, s')
  simp only [readChannelsLoop]
  rw [bind_apply, hstep]
  simp only [bind_apply, pure_apply]
  cases res <;> exact ⟨_, _, rfl⟩

/- Concrete byte inputs used by the claim theorems below. -/

/-- Blending-ranges record with declared length 4 followed by 8 payload
bytes. -/
def cexRangesData : List Nat := [0, 0, 0, 4, 1, 0, 2, 0, 3, 0, 4, 0]

/-- A layer record whose extra fields (mask 4 + ranges 4 + name 1 = 9
bytes) over-consume its declared extra length 5. -/
def cexC2data : List Nat :=
  [0,0,0,0, 0,0,0,0, 0,0,0,0, 0,0,0,0, 0,0, 56,66,73,77, 110,111,114,109,
   255,0,0,0, 0,0,0,5, 0,0,0,0, 0,0,0,0, 0]

/-- The value decoded from cexC2data. -/
def cexC2rec : LayerRecord :=
  ⟨0, 0, 0, 0, 0, [], [110, 111, 114, 109], 255, 0, 0, none, ⟨none, []⟩, [], []⟩

/-- A whole section: declared length 23 covering an empty layer section
(4+2 bytes) and a 17-byte global mask info. -/
def readSectData : List Nat :=
  [0,0,0,23, 0,0,0,0, 0,0, 0,0,0,0, 0,0, 0,0,0,0, 0,0,0,0, 0,0,0]

/-- A mask record with size 5 (invalid) and 5 filler bytes. -/
def mask5Data : List Nat := [0, 0, 0, 5, 9, 9, 9, 9, 9]

/-- A mask record with size 20 and its 20 body bytes. -/
def mask20Data : List Nat :=
  [0, 0, 0, 20, 0,0,0,0, 0,0,0,0, 0,0,0,0, 0,0,0,0, 1, 2, 0, 0]

/-- A mask record with size 36 and its 36 body bytes. -/
def mask36Data : List Nat := [0, 0, 0, 36] ++ List.replicate 36 0

/-- Two consecutive 8BIM tagged blocks, keys lyid and luni, declared
payload lengths 4 and 10: 16 + 22 = 38 bytes in total. -/
def tb2data : List Nat :=
  [56,66,73,77, 108,121,105,100, 0,0,0,4, 1,2,3,4,
   56,66,73,77, 108,117,110,105, 0,0,0,10, 1,2,3,4,5,6,7,8,9,10]

/-- Global mask info with declared length 14 (< 17 bytes consumed). -/
def gmi14Data : List Nat := [0,0,0,14, 0,0, 0,0,0,0,0,0,0,0, 0,0, 0]

/-- Global mask info with declared length 20 (3 bytes of filler). -/
def gmi20Data : List Nat := [0, 0, 0, 20] ++ List.replicate 16 7

/-- A layer record prefix (box and zero channels) ending right before the
4-byte magic. -/
def preMagicBytes : List Nat :=
  [0,0,0,0, 0,0,0,0, 0,0,0,0, 0,0,0,0, 0,0]

/-- A layer record carrying clipping byte c, otherwise well-formed, with
extra length 9 exactly covering mask 4 + ranges 4 + name 1. -/
def clipRecData (c : Nat) : List Nat :=
  [0,0,0,0, 0,0,0,0, 0,0,0,0, 0,0,0,0, 0,0, 56,66,73,77, 110,111,114,109,
   255,c,0,0, 0,0,0,9, 0,0,0,0, 0,0,0,0, 0]

/-- A layer record carrying blend-mode bytes b1..b4, otherwise
well-formed. -/
def blendRecData (b1 b2 b3 b4 : Nat) : List Nat :=
  [0,0,0,0, 0,0,0,0, 0,0,0,0, 0,0,0,0, 0,0, 56,66,73,77, b1,b2,b3,b4,
   255,0,0,0, 0,0,0,9, 0,0,0,0, 0,0,0,0, 0]

/-- An inverted-geometry layer (top 10 > bottom 0) with two Raw channels;
the first negative-sized read consumes the whole remainder. -/
def invLayer2 : LayerRecord :=
  ⟨10, 0, 0, 5, 2, [⟨0, 4⟩, ⟨1, 4⟩], [110, 111, 114, 109], 255, 0, 0, none,
    ⟨none, []⟩, [], []⟩

/-- Claim C1 (corrected), counterexample: the blending-ranges decoder on a
record with declared length 4 advances the cursor 12 bytes (4-byte length
field plus one forced 8-byte composite pair), not 4 + 4 as the claim's
exact-advance property requires. -/
theorem claim1_counterexample :
    _read_layer_blending_ranges ⟨cexRangesData, 0, []⟩ =
      .ok (⟨some ((256, 512), (768, 1024)), []⟩, ⟨cexRangesData, 12, []⟩) ∧
    (12 : Nat) ≠ 4 + 4 := ⟨rfl, by decide⟩

/-- Claim C1 (amended): the exact-advance property postOffset = origin +
declaredLength holds for the top-level section, the layer record's extra
data, and the layer mask (whenever decoding returns), but not for the
other length-bearing records. -/
theorem claim1_exact_advance :
    (∀ (s : PStream) (v : LayerAndMaskInfo) (s' : PStream),
      readLayerAndMaskInfo s = .ok (v, s') →
      s'.pos = s.pos + 4 + u32At s.data s.pos) ∧
    (∀ (s : PStream) (v : LayerRecord) (s' : PStream),
      _read_layer_record s = .ok (v, s') →
      s'.pos = lrOrigin s.data s.pos + lrExtraLen s.data s.pos) ∧
    (∀ (s : PStream) (v : Option MaskData) (s' : PStream),
      _read_layer_mask_data s = .ok (v, s') →
      s'.pos = s.pos + 4 + u32At s.data s.pos) :=
  ⟨fun _ _ _ h => read_ok_pos h,
   fun _ _ _ h => layer_record_ok_pos h,
   fun _ _ _ h => mask_ok_pos h⟩

/-- Claim C1, witness: the mask conjunct evaluated on a concrete size-5
mask record. -/
theorem claim1_witness :
    (⟨mask5Data, 9, ["Invalid layer data size: 5"]⟩ : PStream).pos =
      (⟨mask5Data, 0, ([] : List String)⟩ : PStream).pos + 4 +
        u32At (⟨mask5Data, 0, ([] : List String)⟩ : PStream).data
          (⟨mask5Data, 0, ([] : List String)⟩ : PStream).pos :=
  claim1_exact_advance.2.2 ⟨mask5Data, 0, []⟩ none
    ⟨mask5Data, 9, ["Invalid layer data size: 5"]⟩ rfl

/-- Claim C2 (corrected), counterexample: a layer record whose mask,
blending ranges and name consume 9 bytes against a declared extra length
of 5 ends at origin + 5 = 39, moving the cursor backward past the current
position 43; there is no clamping to origin + max(extraLength,
bytesConsumed) = 43. -/
theorem claim2_counterexample :
    _read_layer_record ⟨cexC2data, 0, []⟩ = .ok (cexC2rec, ⟨cexC2data, 39, []⟩) ∧
    (39 : Nat) ≠ 34 + max 5 9 := by
  refine ⟨?_, by decide⟩
  simp [cexC2data, cexC2rec, _read_layer_record, decodeAscii, _read_layer_mask_data,
    _read_layer_blending_ranges, read_pascal_string, _read_layer_tagged_blocks, tbLoop,
    _read_additional_layer_info_block, readChannelInfosLoop, readU16, readU32, readU8,
    readExact, readUpTo, seekRel, tellM, warnM, bind_apply, pure_apply, bytesAt,
    sig8BIM, sig8B64, beNat, seg, beAt, byteAt, i32At, toSigned, blendModeIsKnown,
    bytesToStr, knownBlendModes, clippingIsKnown, throwErr]

/-- Claim C2 (amended): the final seek of the layer-record decoder targets
origin + extraLength unconditionally, with no clamping of backward
motion, and the top-level section's final seek to origin + L behaves
identically. -/
theorem claim2_final_seek_unclamped :
    (∀ (s : PStream) (v : LayerRecord) (s' : PStream),
      _read_layer_record s = .ok (v, s') →
      s'.pos = lrOrigin s.data s.pos + lrExtraLen s.data s.pos) ∧
    (∀ (s : PStream) (v : LayerAndMaskInfo) (s' : PStream),
      readLayerAndMaskInfo s = .ok (v, s') →
      s'.pos = s.pos + 4 + u32At s.data s.pos) :=
  ⟨fun _ _ _ h => layer_record_ok_pos h,
   fun _ _ _ h => read_ok_pos h⟩

/-- Claim C2, witness: the top-level conjunct evaluated on a concrete
27-byte section. -/
theorem claim2_witness :
    (⟨readSectData, 27, []⟩ : PStream).pos =
      (⟨readSectData, 0, ([] : List String)⟩ : PStream).pos + 4 +
        u32At (⟨readSectData, 0, ([] : List String)⟩ : PStream).data
          (⟨readSectData, 0, ([] : List String)⟩ : PStream).pos := by
  refine claim2_final_seek_unclamped.2 ⟨readSectData, 0, []⟩
    ⟨⟨0, 0, [], []⟩, ⟨0, (0, 0, 0, 0), 0, 0⟩, []⟩ ⟨readSectData, 27, []⟩ ?_
  simp [readSectData, readLayerAndMaskInfo, _read_layers, _read_global_mask_info,
    readLayerRecordsLoop, readChannelImagesLoop, _read_layer_tagged_blocks, tbLoop,
    readU16, readU32, readI16, readExact, readUpTo, seekRel, tellM, warnM, bind_apply,
    pure_apply, bytesAt, beNat, seg, beAt, byteAt, toSigned]

/-- Claim C6 (code bug): mask sizes 0 and invalid sizes behave as
specified, but sizes 20 and 36 raise NameError because the source
constructs LayerMaskData, a name not defined in the module (the
namedtuple is defined as MaskData). -/
theorem claim6_mask_sizes :
    _read_layer_mask_data ⟨mask20Data, 0, []⟩ = .error (.nameError "LayerMaskData") ∧
    _read_layer_mask_data ⟨mask36Data, 0, []⟩ = .error (.nameError "LayerMaskData") ∧
    _read_layer_mask_data ⟨[0, 0, 0, 0], 0, []⟩ = .ok (none, ⟨[0, 0, 0, 0], 4, []⟩) ∧
    _read_layer_mask_data ⟨mask5Data, 0, []⟩ =
      .ok (none, ⟨mask5Data, 9, ["Invalid layer data size: 5"]⟩) :=
  ⟨rfl, rfl, rfl, rfl⟩

/-- Claim C7 (corrected), counterexample: with declared length 14 the
global-mask-info decoder advances 17 bytes, not the 4 + max(14, 13) = 18
bytes the claim predicts — the code reconciles the declared length
against all 17 consumed bytes, the length field itself included. -/
theorem claim7_counterexample :
    _read_global_mask_info ⟨gmi14Data, 0, []⟩ =
      .ok (⟨0, (0, 0, 0, 0), 0, 0⟩, ⟨gmi14Data, 17, []⟩) ∧
    (17 : Nat) ≠ 4 + max 14 13 := ⟨rfl, by decide⟩

/-- Claim C7 (amended): the global-mask-info decoder reads the u32 length
and 13-byte body (17 bytes), skips length - 17 filler bytes clamped at
zero, so the cursor advances exactly max(17, length) bytes. -/
theorem claim7_gmi_advance (s : PStream) (v : GlobalMaskInfo) (s' : PStream)
    (h : _read_global_mask_info s = .ok (v, s')) :
    s'.pos = s.pos + max 17 (u32At s.data s.pos) :=
  gmi_ok_pos h

/-- Claim C7, witness: evaluated on a concrete record with declared
length 20 (3 filler bytes skipped, 20 bytes advanced). -/
theorem claim7_witness :
    (⟨gmi20Data, 20, []⟩ : PStream).pos =
      (⟨gmi20Data, 0, ([] : List String)⟩ : PStream).pos + max 17
        (u32At (⟨gmi20Data, 0, ([] : List String)⟩ : PStream).data
          (⟨gmi20Data, 0, ([] : List String)⟩ : PStream).pos) :=
  claim7_gmi_advance ⟨gmi20Data, 0, []⟩ ⟨1799, (1799, 1799, 1799, 1799), 1799, 7⟩
    ⟨gmi20Data, 20, []⟩ rfl

/-- Claim C8 (corrected), counterexample: the two-block stream is fully
consumed (2 entries in order) but the scanner consumes 38 bytes, not the
claimed 8+4+8+10 = 30: each block also carries a 4-byte length field. -/
theorem claim8_counterexample :
    _read_layer_tagged_blocks 30 ⟨tb2data, 0, []⟩ =
      .ok ([([108, 121, 105, 100], [1, 2, 3, 4]),
            ([108, 117, 110, 105], [1, 2, 3, 4, 5, 6, 7, 8, 9, 10])],
        ⟨tb2data, 38, []⟩) ∧
    ¬((38 : Nat) = 8 + 4 + 8 + 10) := by
  refine ⟨?_, by decide⟩
  simp [tb2data, _read_layer_tagged_blocks, tbLoop, _read_additional_layer_info_block,
    readUpTo, readExact, readU32, seekRel, bind_apply, pure_apply, bytesAt, sig8BIM,
    sig8B64, beNat, seg, beAt]

/-- Claim C8 (amended): the scanner yields the two entries in stream order
and consumes 12+4+12+10 = 38 bytes in total (signature + key +
length-field + payload per block). -/
theorem claim8_two_blocks :
    _read_layer_tagged_blocks 30 ⟨tb2data, 0, []⟩ =
      .ok ([([108, 121, 105, 100], [1, 2, 3, 4]),
            ([108, 117, 110, 105], [1, 2, 3, 4, 5, 6, 7, 8, 9, 10])],
        ⟨tb2data, 12 + 4 + 12 + 10, []⟩) := by
  simp [tb2data, _read_layer_tagged_blocks, tbLoop, _read_additional_layer_info_block,
    readUpTo, readExact, readU32, seekRel, bind_apply, pure_apply, bytesAt, sig8BIM,
    sig8B64, beNat, seg, beAt]

/-- Claim C10 (confirmed): after its 4-byte length field the
blending-ranges decoder consumes 0 payload bytes when the declared length
L is 0 and exactly 8*max(L/8, 1) payload bytes otherwise; for 0 < L < 8
that is 8 bytes, different from L. -/
theorem claim10_blending_consumption (s : PStream) (v : LayerBlendingRanges)
    (s' : PStream) (h : _read_layer_blending_ranges s = .ok (v, s')) :
    s'.pos = s.pos + 4 + (if u32At s.data s.pos = 0 then 0
      else 8 * max (u32At s.data s.pos / 8) 1) :=
  blending_ok_pos h

/-- Claim C10, witness: evaluated on a concrete record with declared
length 4 (8 payload bytes consumed). -/
theorem claim10_witness :
    (⟨cexRangesData, 12, []⟩ : PStream).pos =
      (⟨cexRangesData, 0, ([] : List String)⟩ : PStream).pos + 4 +
        (if u32At (⟨cexRangesData, 0, ([] : List String)⟩ : PStream).data
            (⟨cexRangesData, 0, ([] : List String)⟩ : PStream).pos = 0 then 0
          else 8 * max (u32At (⟨cexRangesData, 0, ([] : List String)⟩ : PStream).data
            (⟨cexRangesData, 0, ([] : List String)⟩ : PStream).pos / 8) 1) :=
  claim10_blending_consumption ⟨cexRangesData, 0, []⟩
    ⟨some ((256, 512), (768, 1024)), []⟩ ⟨cexRangesData, 12, []⟩ rfl

/-- Claim C3 (confirmed): a Raw layer channel with declared dataLength
2 + w*h reads exactly w*h payload bytes and advances exactly dataLength;
a PackBits channel reads the h-count scan-line table then exactly
sum(counts) bytes (2h + S after the tag) before reconciliation; the
reconciliation skip is dataLength - bytesRead - 2 clamped at zero
(bytesRead includes the 2 tag bytes); merged-image channels have no
declared lengths and no reconciliation: Raw merged data consumes exactly
2 + n*w*h bytes. -/
theorem claim3_channel_image_lengths :
    (∀ (w h : Int) (ci : ChannelInfo) (s : PStream) (r : Option ChannelData)
      (s' : PStream), readChannelStep w h ci s = .ok (r, s') →
      u16At s.data s.pos = 0 → 0 ≤ w * h →
      s.pos + 2 + (w * h).toNat ≤ s.data.length →
      ci.length = 2 + (w * h).toNat →
      r = some ⟨0, bytesAt s.data (s.pos + 2) (w * h).toNat⟩ ∧
        (bytesAt s.data (s.pos + 2) (w * h).toNat).length = (w * h).toNat ∧
        s'.pos = s.pos + ci.length) ∧
    (∀ (w h : Int) (ci : ChannelInfo) (s : PStream) (r : Option ChannelData)
      (s' : PStream), readChannelStep w h ci s = .ok (r, s') →
      u16At s.data s.pos = 0 → 0 ≤ w * h →
      s.pos + 2 + (w * h).toNat ≤ s.data.length →
      s'.pos = s.pos + 2 + (w * h).toNat +
        ((ci.length : Int) - ((2 : Nat) + (w * h).toNat : Nat) - 2).toNat) ∧
    (∀ (w h : Int) (ci : ChannelInfo) (s : PStream) (r : Option ChannelData)
      (s' : PStream), readChannelStep w h ci s = .ok (r, s') →
      u16At s.data s.pos = 1 →
      s.pos + 2 + 2 * h.toNat +
        (parseU16s (bytesAt s.data (s.pos + 2) (2 * h.toNat))).sum ≤ s.data.length →
      r = some ⟨1, bytesAt s.data (s.pos + 2 + 2 * h.toNat)
          (parseU16s (bytesAt s.data (s.pos + 2) (2 * h.toNat))).sum⟩ ∧
        s'.pos = s.pos + 2 + 2 * h.toNat +
          (parseU16s (bytesAt s.data (s.pos + 2) (2 * h.toNat))).sum +
          ((ci.length : Int) - ((2 : Nat) + 2 * h.toNat +
            (parseU16s (bytesAt s.data (s.pos + 2) (2 * h.toNat))).sum : Nat) - 2).toNat) ∧
    (∀ (hd : Header) (s : PStream), u16At s.data s.pos = 0 →
      s.pos + 2 ≤ s.data.length →
      s.pos + 2 + hd.number_of_channels * (hd.width * hd.height) ≤ s.data.length →
      ∃ v, read_image_data hd s =
        .ok (v, ⟨s.data, s.pos + 2 + hd.number_of_channels * (hd.width * hd.height),
          s.warns⟩) ∧ v.length = hd.number_of_channels) := by
  refine ⟨?_, ?_, ?_, ?_⟩
  · intro w h ci s r s' hrun htag hwh havail hlen
    obtain ⟨h1, h2, h3⟩ := channel_step_ok_raw hrun htag hwh havail
    refine ⟨h1, h2, ?_⟩
    rw [hlen] at h3 ⊢
    omega
  · intro w h ci s r s' hrun htag hwh havail
    exact (channel_step_ok_raw hrun htag hwh havail).2.2
  · intro w h ci s r s' hrun htag hpay
    exact channel_step_ok_packbits hrun htag hpay
  · intro hd s htag h2 havail
    exact read_image_data_raw hd htag h2 havail

/-- Claim C3, witness: the Raw, PackBits and merged-image conjuncts
evaluated on concrete channels. -/
theorem claim3_witness :
    (some (ChannelData.mk 0 [7, 8]) =
        some ⟨0, bytesAt [0, 0, 7, 8] (0 + 2) ((1 * 2 : Int)).toNat⟩ ∧
      (bytesAt [0, 0, 7, 8] (0 + 2) ((1 * 2 : Int)).toNat).length = ((1 * 2 : Int)).toNat ∧
      (4 : Nat) = 0 + (4 : Nat)) ∧
    (some (ChannelData.mk 1 [9, 9]) =
        some ⟨1, bytesAt [0, 1, 0, 2, 9, 9, 42, 42, 42] (0 + 2 + 2 * (1 : Int).toNat)
          (parseU16s (bytesAt [0, 1, 0, 2, 9, 9, 42, 42, 42] (0 + 2)
            (2 * (1 : Int).toNat))).sum⟩ ∧
      (6 : Nat) = 0 + 2 + 2 * (1 : Int).toNat +
        (parseU16s (bytesAt [0, 1, 0, 2, 9, 9, 42, 42, 42] (0 + 2)
          (2 * (1 : Int).toNat))).sum +
        (((8 : Nat) : Int) - ((2 : Nat) + 2 * (1 : Int).toNat +
          (parseU16s (bytesAt [0, 1, 0, 2, 9, 9, 42, 42, 42] (0 + 2)
            (2 * (1 : Int).toNat))).sum : Nat) - 2).toNat) ∧
    (∃ v, read_image_data ⟨1, 2, 2⟩ ⟨[0, 0, 5, 6, 7, 8], 0, []⟩ =
      .ok (v, ⟨[0, 0, 5, 6, 7, 8], 0 + 2 + 2 * (1 * 2), []⟩) ∧ v.length = 2) := by
  refine ⟨?_, ?_, ?_⟩
  · have := claim3_channel_image_lengths.1 1 2 ⟨0, 4⟩ ⟨[0, 0, 7, 8], 0, []⟩
      (some (ChannelData.mk 0 [7, 8])) ⟨[0, 0, 7, 8], 4, []⟩ rfl rfl (by decide)
      (by decide) (by decide)
    exact this
  · have := claim3_channel_image_lengths.2.2.1 5 1 ⟨0, 8⟩
      ⟨[0, 1, 0, 2, 9, 9, 42, 42, 42], 0, []⟩ (some (ChannelData.mk 1 [9, 9]))
      ⟨[0, 1, 0, 2, 9, 9, 42, 42, 42], 6, []⟩ rfl rfl (by decide)
    exact this
  · have := claim3_channel_image_lengths.2.2.2 ⟨1, 2, 2⟩ ⟨[0, 0, 5, 6, 7, 8], 0, []⟩
      rfl (by decide) (by decide)
    exact this

/-- Claim C4 (confirmed): the tagged-block scanner terminates exactly two
ways: an unrecognized 4-byte peek is rewound and the scan stops with the
cursor unchanged (empty result on a non-signature buffer with positive
budget); and the budget test (stop once consumed >= B) happens only
between blocks, so the final state follows whole-block steps whose last
one began strictly under the budget. -/
theorem claim4_scanner_termination :
    (∀ (B : Int) (s : PStream), 0 < B →
      (bytesAt s.data s.pos 4).length = 4 →
      bytesAt s.data s.pos 4 ≠ sig8BIM →
      bytesAt s.data s.pos 4 ≠ sig8B64 →
      _read_layer_tagged_blocks B s = .ok ([], s)) ∧
    (∀ (startPos : Nat) (B : Int) (acc : List (List Nat × List Nat)) (s : PStream),
      ¬((s.pos : Int) - (startPos : Int) < B) →
      tbLoop startPos B acc s = .ok (acc, s)) ∧
    (∀ (B : Int) (s : PStream) (bs : List (List Nat × List Nat)) (s' : PStream),
      _read_layer_tagged_blocks B s = .ok (bs, s') →
      s' = s ∨ ∃ sMid r, ((sMid.pos : Int) - (s.pos : Int) < B) ∧
        _read_additional_layer_info_block sMid = .ok (r, s')) := by
  refine ⟨?_, fun _ _ _ _ h => tbLoop_stop h, fun _ _ _ _ h => scan_last h⟩
  intro B s hB hlen hA hB'
  unfold _read_layer_tagged_blocks
  rw [tbLoop, dif_pos (show ((s.pos : Int) - (s.pos : Int)) < B by omega)]
  have hblk := block_unpeek hlen hA hB'
  split
  · next e heq =>
    rw [hblk] at heq
    exact absurd heq (by simp)
  · next s₁ heq =>
    rw [hblk] at heq
    simp only [Except.ok.injEq, Prod.mk.injEq] at heq
    rw [heq.2]
  · next b s₁ heq =>
    rw [hblk] at heq
    simp at heq

/-- Claim C4, witness: the un-peek conjunct evaluated on a concrete
4-byte non-signature buffer with budget 5. -/
theorem claim4_witness :
    _read_layer_tagged_blocks 5 ⟨[1, 2, 3, 4], 0, []⟩ =
      .ok ([], ⟨[1, 2, 3, 4], 0, []⟩) :=
  claim4_scanner_termination.1 5 ⟨[1, 2, 3, 4], 0, []⟩ (by decide) rfl
    (by decide) (by decide)

/-- Claim C9 (corrected), counterexample: an inverted-geometry layer
(top 10 > bottom 0) with two Raw channels crashes: the first channel's
negative-sized read consumes the whole remainder, so the second channel's
compression-tag read raises struct.error at end of stream. -/
theorem claim9_counterexample :
    invLayer2.bottom < invLayer2.top ∧
    _read_channel_image_data invLayer2 ⟨[0, 0, 1, 2, 3], 0, []⟩ =
      .error .structError := ⟨by decide, rfl⟩

/-- Claim C9 (amended): for a layer record with inverted geometry and a
single Raw channel, the channel-image pass completes without raising
(the negative w*h read consumes the remainder; the reconciliation skip
is forward-only), provided the 2 tag bytes are present. -/
theorem claim9_inverted_single_channel (t l b r : Int) (ci : ChannelInfo)
    (s : PStream) (hgeom : b < t ∨ r < l)
    (h2 : s.pos + 2 ≤ s.data.length) (htag : u16At s.data s.pos = 0) :
    ∃ v s', _read_channel_image_data (mkGeomLayer t l b r [ci]) s = .ok (v, s') :=
  channel_image_single_total h2 htag

/-- Claim C9, witness: evaluated on the concrete inverted box
(10, 0, 0, 5) with one Raw channel. -/
theorem claim9_witness :
    ∃ v s', _read_channel_image_data (mkGeomLayer 10 0 0 5 [⟨0, 4⟩])
      ⟨[0, 0, 9, 9], 0, []⟩ = .ok (v, s') :=
  claim9_inverted_single_channel 10 0 0 5 ⟨0, 4⟩ ⟨[0, 0, 9, 9], 0, []⟩
    (Or.inl (by decide)) (by decide) rfl

/-- Claim C5 (corrected), counterexample: two layer records whose magic
mismatches at different byte offsets (18 and 24) raise the very same
error value — the raised Error carries the invalid signature bytes, not
the byte offset of the mismatch. -/
theorem claim5_counterexample :
    _read_layer_record ⟨preMagicBytes ++ [77, 73, 66, 56], 0, []⟩ =
      .error (.error "Error parsing layer: invalid signature ([77, 73, 66, 56])") ∧
    _read_layer_record ⟨List.replicate 16 0 ++ [0, 1] ++ [0, 0, 0, 0, 0, 10] ++
        [77, 73, 66, 56], 0, []⟩ =
      .error (.error "Error parsing layer: invalid signature ([77, 73, 66, 56])") :=
  ⟨rfl, rfl⟩

/-- Claim C5 (amended): a layer-record magic different from 8BIM raises a
distinct parse error naming the invalid signature bytes (decoding stops),
while the recoverable anomalies each add a collected warning and decoding
continues with a best-effort or null value: unknown clipping value,
unknown blend-mode key whose four bytes are ASCII, mask size outside
0/20/36, unrecognized compression code, and the
recognized-but-unsupported ZIP code.  A blend-mode field with a byte
above 0x7f is instead a further fatal path: the ascii decode of the key
raises UnicodeDecodeError before the is_known check. -/
theorem claim5_fatal_and_warnings :
    (∀ b1 b2 b3 b4 : Nat, [b1, b2, b3, b4] ≠ sig8BIM →
      _read_layer_record ⟨preMagicBytes ++ [b1, b2, b3, b4], 0, []⟩ =
        .error (.error ("Error parsing layer: invalid signature (" ++
          toString [b1, b2, b3, b4] ++ ")"))) ∧
    (∀ c : Nat, clippingIsKnown c = false →
      _read_layer_record ⟨clipRecData c, 0, []⟩ =
        .ok (⟨0, 0, 0, 0, 0, [], [110, 111, 114, 109], 255, c, 0, none, ⟨none, []⟩,
          [], []⟩, ⟨clipRecData c, 43, ["Unknown clipping: " ++ toString c]⟩)) ∧
    (∀ b1 b2 b3 b4 : Nat, b1 < 128 → b2 < 128 → b3 < 128 → b4 < 128 →
      blendModeIsKnown [b1, b2, b3, b4] = false →
      _read_layer_record ⟨blendRecData b1 b2 b3 b4, 0, []⟩ =
        .ok (⟨0, 0, 0, 0, 0, [], [b1, b2, b3, b4], 255, 0, 0, none, ⟨none, []⟩,
          [], []⟩, ⟨blendRecData b1 b2 b3 b4, 43,
            ["Unknown blend mode (" ++ bytesToStr [b1, b2, b3, b4] ++ ")"]⟩)) ∧
    (∀ b1 b2 b3 b4 : Nat, ¬(b1 < 128 ∧ b2 < 128 ∧ b3 < 128 ∧ b4 < 128) →
      _read_layer_record ⟨blendRecData b1 b2 b3 b4, 0, []⟩ =
        .error .unicodeDecodeError) ∧
    (∀ sz : Nat, sz ≠ 0 → sz ≠ 20 → sz ≠ 36 → ∀ s : PStream,
      s.pos + 4 ≤ s.data.length → u32At s.data s.pos = sz →
      _read_layer_mask_data s = .ok (none, ⟨s.data, s.pos + 4 + sz,
        s.warns ++ ["Invalid layer data size: " ++ toString sz]⟩)) ∧
    (∀ (w h : Int) (ci : ChannelInfo) (s : PStream), s.pos + 2 ≤ s.data.length →
      compressionIsKnown (u16At s.data s.pos) = false →
      ∃ s', readChannelStep w h ci s = .ok (none, s') ∧
        s'.warns = s.warns ++ ["Unknown compression type: " ++
          toString (u16At s.data s.pos)]) ∧
    readChannelStep 1 1 ⟨0, 4⟩ ⟨[0, 2, 5, 5], 0, []⟩ =
      .ok (none, ⟨[0, 2, 5, 5], 2,
        ["This compression type (2) is not yet supported."]⟩) := by
  refine ⟨?_, ?_, ?_, ?_, ?_, ?_, rfl⟩
  · intro b1 b2 b3 b4 hne
    simp [preMagicBytes, _read_layer_record, decodeAscii, readChannelInfosLoop, readU16, readU32,
      readExact, readUpTo, tellM, bind_apply, pure_apply, bytesAt, beNat, seg, beAt,
      byteAt, i32At, toSigned, throwErr, hne]
  · intro c hc
    simp [clipRecData, _read_layer_record, decodeAscii, _read_layer_mask_data,
      _read_layer_blending_ranges, read_pascal_string, _read_layer_tagged_blocks,
      tbLoop, _read_additional_layer_info_block, readChannelInfosLoop, readU16,
      readU32, readU8, readExact, readUpTo, seekRel, tellM, warnM, bind_apply,
      pure_apply, bytesAt, sig8BIM, sig8B64, beNat, seg, beAt, byteAt, i32At,
      toSigned, blendModeIsKnown, bytesToStr, knownBlendModes, hc, throwErr]
  · intro b1 b2 b3 b4 ha1 ha2 ha3 ha4 hbm
    simp [blendRecData, _read_layer_record, decodeAscii, _read_layer_mask_data,
      _read_layer_blending_ranges, read_pascal_string, _read_layer_tagged_blocks,
      tbLoop, _read_additional_layer_info_block, readChannelInfosLoop, readU16,
      readU32, readU8, readExact, readUpTo, seekRel, tellM, warnM, bind_apply,
      pure_apply, bytesAt, sig8BIM, sig8B64, beNat, seg, beAt, byteAt, i32At,
      toSigned, clippingIsKnown, hbm, ha1, ha2, ha3, ha4, throwErr]
  · intro b1 b2 b3 b4 hna
    simp [blendRecData, _read_layer_record, decodeAscii, readChannelInfosLoop,
      readU16, readU32, readExact, readUpTo, tellM, bind_apply, pure_apply, bytesAt,
      sig8BIM, beNat, seg, beAt, byteAt, i32At, toSigned, hna, throwErr]
  · intro sz h0 h20 h36 s h4 hszv
    exact mask_invalid h0 h20 h36 s h4 hszv
  · intro w h ci s h2 hk
    exact channel_step_unknown h2 hk

/-- Claim C5, witness: each conjunct evaluated at a concrete anomaly:
magic MIB8, clipping 7, blend mode XXXX, blend bytes with 255 (fatal
UnicodeDecodeError), mask size 5, compression 9. -/
theorem claim5_witness :
    _read_layer_record ⟨preMagicBytes ++ [77, 73, 66, 56], 0, []⟩ =
      .error (.error ("Error parsing layer: invalid signature (" ++
        toString [77, 73, 66, 56] ++ ")")) ∧
    _read_layer_record ⟨clipRecData 7, 0, []⟩ =
      .ok (⟨0, 0, 0, 0, 0, [], [110, 111, 114, 109], 255, 7, 0, none, ⟨none, []⟩,
        [], []⟩, ⟨clipRecData 7, 43, ["Unknown clipping: " ++ toString 7]⟩) ∧
    _read_layer_record ⟨blendRecData 88 88 88 88, 0, []⟩ =
      .ok (⟨0, 0, 0, 0, 0, [], [88, 88, 88, 88], 255, 0, 0, none, ⟨none, []⟩,
        [], []⟩, ⟨blendRecData 88 88 88 88, 43,
          ["Unknown blend mode (" ++ bytesToStr [88, 88, 88, 88] ++ ")"]⟩) ∧
    _read_layer_record ⟨blendRecData 255 0 0 0, 0, []⟩ =
      .error .unicodeDecodeError ∧
    _read_layer_mask_data ⟨mask5Data, 0, []⟩ = .ok (none, ⟨mask5Data, 0 + 4 + 5,
      [] ++ ["Invalid layer data size: " ++ toString 5]⟩) ∧
    (∃ s', readChannelStep 1 1 ⟨0, 4⟩ ⟨[0, 9, 1, 1], 0, []⟩ = .ok (none, s') ∧
      s'.warns = [] ++ ["Unknown compression type: " ++
        toString (u16At [0, 9, 1, 1] 0)]) := by
  refine ⟨claim5_fatal_and_warnings.1 77 73 66 56 (by decide),
    claim5_fatal_and_warnings.2.1 7 (by decide),
    claim5_fatal_and_warnings.2.2.1 88 88 88 88 (by decide) (by decide) (by decide)
      (by decide) (by decide),
    claim5_fatal_and_warnings.2.2.2.1 255 0 0 0 (by decide),
    ?_, ?_⟩
  · exact claim5_fatal_and_warnings.2.2.2.2.1 5 (by decide) (by decide) (by decide)
      ⟨mask5Data, 0, []⟩ (by decide) rfl
  · exact claim5_fatal_and_warnings.2.2.2.2.2.1 1 1 ⟨0, 4⟩ ⟨[0, 9, 1, 1], 0, []⟩
      (by decide) (by decide)
